import Mathlib

/-!
Verification development for the giulio-lang core interpreter.

This file shallowly embeds the data model and the operations of the
repository's tree-walking interpreter: the AST (src/ast/ast.rs), the error
taxonomy (src/errors.rs), the runtime value type and its equality
(src/interpreter/obj.rs), the environment chain (src/interpreter/env.rs),
the builtin registration table (src/interpreter/builtins/functions.rs) with
the string builtins (src/interpreter/builtins/impls/string.rs, shared.rs),
the pure object operations (src/interpreter/helpers/obj_operations.rs,
type_converters.rs), the evaluator (src/interpreter/eval.rs and
src/interpreter/helpers/*.rs), and the post-parse await validation
(src/parser/await_ctx_helpers.rs).

Modelling conventions:
* machine integers are `Int` with explicit i64-range checks where the code
  checks them; Rust `BigInt` arithmetic is `Int` arithmetic (`Int.tdiv` and
  `Int.tmod` match `BigInt`'s truncated division and remainder);
* `HashMap` values are association lists whose insert replaces an existing
  key, so keys stay unique; iteration order is the insertion order (the
  code never lets a program observe hash iteration order);
* the shared mutable environment handle (`Arc<Mutex<Environment>>`) is
  modelled by value: a frame chain is a value, a child frame carries its
  parent chain, and restoring the caller's frame after a scoped evaluation
  takes the parent component of the finished chain (which carries every
  mutation the scope made through the chain).  Closures capture the chain
  value at creation.  The difference to the Rust sharing is observable only
  through mutation of a captured environment after capture, which no claim
  below touches;
* the evaluator is fuel-indexed: every evaluation function consumes one
  unit of fuel per call and yields `none` when fuel runs out, so all
  definitions are structurally recursive and computable;
* `tokio` futures, task spawning and file I/O are not representable in a
  pure embedding; the arms that would suspend (`await`, async calls) yield
  a marked error object and no claim's theorem depends on them.
-/

/-- Runtime error taxonomy, from src/errors.rs `RuntimeError`.  Note that the
variant `moduloByZero` exists (with display text "Modulo by zero") but is
never constructed anywhere in the interpreter sources. -/
inductive RuntimeErr : Type
  | typeMismatch (expected got : String)
  | undefinedVariable (name : String)
  | invalidOperation (op : String)
  | divisionByZero
  | moduloByZero
  | indexOutOfBounds (index : Int) (length : Nat)
  | wrongNumberOfArguments (min max got : Nat)
  | notCallable (s : String)
  | notHashable (s : String)
  | notIndexable (s : String)
  | emptyArray
  | invalidArguments (s : String)
  deriving DecidableEq

/-- Parser error taxonomy, from src/errors.rs `ParserError` together with the
`AwaitOutsideAsync` variant that src/parser/await_ctx_helpers.rs constructs
(the copy of errors.rs under src/ predates that variant). -/
inductive ParserErr : Type
  | unexpectedToken (s : String)
  | expectedToken (expected found : String)
  | invalidExpression (s : String)
  | unexpectedEOF
  | awaitOutsideAsync
  deriving DecidableEq

/-- Prefix operators, from src/ast/ast.rs `Prefix`. -/
inductive PrefixOp : Type
  | prefixPlus
  | prefixMinus
  | notOp
  deriving DecidableEq

/-- Infix operators, from src/ast/ast.rs `Infix`. -/
inductive InfixOp : Type
  | plus
  | minus
  | divide
  | multiply
  | modulo
  | equal
  | notEqual
  | greaterThanEqual
  | lessThanEqual
  | greaterThan
  | lessThan
  | andOp
  | orOp
  deriving DecidableEq

/-- Literals, from src/ast/ast.rs `Literal`.  `floatLit` carries a Lean
`Float`; no claim below states anything about floating point. -/
inductive Lit : Type
  | intLit (i : Int)
  | bigIntLit (i : Int)
  | floatLit (f : Float)
  | boolLit (b : Bool)
  | stringLit (s : String)
  | nullLit
  deriving BEq

/-- Import item forms, from src/ast/ast.rs `ImportItems`. -/
inductive ImportItemsK : Type
  | all
  | specific (names : List String)
  | single (name : String)
  deriving DecidableEq

mutual
/-- Statements, from src/ast/ast.rs `Stmt`.  Identifiers are their name
strings; statement lists are the explicit `StmtList` so that recursion over
the tree stays structural. -/
inductive Stmt : Type
  | letStmt (name : String) (e : Expr)
  | assignStmt (name : String) (e : Expr)
  | fieldAssignStmt (object : Expr) (field : String) (value : Expr)
  | indexAssignStmt (target : Expr) (index : Expr) (value : Expr)
  | returnStmt (e : Expr)
  | exprStmt (e : Expr)
  | exprValueStmt (e : Expr)
  | fnStmt (name : String) (params : List String) (body : StmtList)
  | structStmt (name : String) (fields : IdentExprList) (methods : IdentExprList)
  | importStmt (path : List String) (items : ImportItemsK)
  | breakStmt
  | continueStmt
  | throwStmt (e : Expr)

/-- Expressions, from src/ast/ast.rs `Expr`. -/
inductive Expr : Type
  | identExpr (name : String)
  | litExpr (l : Lit)
  | prefixExpr (op : PrefixOp) (e : Expr)
  | infixExpr (op : InfixOp) (l r : Expr)
  | ifExpr (cond : Expr) (consequence : StmtList) (alternative : Option StmtList)
  | fnExpr (params : List String) (body : StmtList)
  | callExpr (function : Expr) (arguments : ExprList)
  | arrayExpr (elems : ExprList)
  | hashExpr (pairs : ExprPairList)
  | indexExpr (array : Expr) (index : Expr)
  | methodCallExpr (object : Expr) (method : String) (arguments : ExprList)
  | structLiteral (name : String) (fields : IdentExprList)
  | thisExpr
  | fieldAccessExpr (object : Expr) (field : String)
  | whileExpr (cond : Expr) (body : StmtList)
  | forExpr (ident : String) (iterable : Expr) (body : StmtList)
  | cStyleForExpr (init : Option Stmt) (cond : Option Expr) (update : Option Stmt)
      (body : StmtList)
  | tryCatchExpr (tryBody : StmtList) (catchIdent : Option String)
      (catchBody : Option StmtList) (finallyBody : Option StmtList)
  | asyncFnExpr (params : List String) (body : StmtList)
  | awaitExpr (e : Expr)

/-- Statement sequences (`Program = Vec<Stmt>` in src/ast/ast.rs). -/
inductive StmtList : Type
  | nil
  | cons (s : Stmt) (rest : StmtList)

/-- Expression sequences (`Vec<Expr>`). -/
inductive ExprList : Type
  | nil
  | cons (e : Expr) (rest : ExprList)

/-- Key/value expression pair sequences (`Vec<(Expr, Expr)>`). -/
inductive ExprPairList : Type
  | nil
  | cons (k v : Expr) (rest : ExprPairList)

/-- Named expression sequences (`Vec<(Ident, Expr)>`). -/
inductive IdentExprList : Type
  | nil
  | cons (name : String) (e : Expr) (rest : IdentExprList)
end

/-- Program, from src/ast/ast.rs (`pub type Program = Vec<Stmt>`). -/
abbrev Program := StmtList

mutual
/-- Structural equality on statements: the `#[derive(PartialEq)]` of
src/ast/ast.rs `Stmt`. -/
def stmt_beq : Stmt → Stmt → Bool
  | .letStmt n e, .letStmt n' e' => n == n' && expr_beq e e'
  | .assignStmt n e, .assignStmt n' e' => n == n' && expr_beq e e'
  | .fieldAssignStmt o f v, .fieldAssignStmt o' f' v' =>
      expr_beq o o' && f == f' && expr_beq v v'
  | .indexAssignStmt t i v, .indexAssignStmt t' i' v' =>
      expr_beq t t' && expr_beq i i' && expr_beq v v'
  | .returnStmt e, .returnStmt e' => expr_beq e e'
  | .exprStmt e, .exprStmt e' => expr_beq e e'
  | .exprValueStmt e, .exprValueStmt e' => expr_beq e e'
  | .fnStmt n p b, .fnStmt n' p' b' => n == n' && p == p' && stmt_list_beq b b'
  | .structStmt n f m, .structStmt n' f' m' =>
      n == n' && ident_expr_list_beq f f' && ident_expr_list_beq m m'
  | .importStmt p i, .importStmt p' i' => p == p' && i == i'
  | .breakStmt, .breakStmt => true
  | .continueStmt, .continueStmt => true
  | .throwStmt e, .throwStmt e' => expr_beq e e'
  | _, _ => false

/-- Structural equality on expressions: the `#[derive(PartialEq)]` of
src/ast/ast.rs `Expr`. -/
def expr_beq : Expr → Expr → Bool
  | .identExpr n, .identExpr n' => n == n'
  | .litExpr l, .litExpr l' => l == l'
  | .prefixExpr op e, .prefixExpr op' e' => op == op' && expr_beq e e'
  | .infixExpr op l r, .infixExpr op' l' r' =>
      op == op' && expr_beq l l' && expr_beq r r'
  | .ifExpr c t a, .ifExpr c' t' a' =>
      expr_beq c c' && stmt_list_beq t t' &&
        (match a, a' with
          | none, none => true
          | some x, some y => stmt_list_beq x y
          | _, _ => false)
  | .fnExpr p b, .fnExpr p' b' => p == p' && stmt_list_beq b b'
  | .callExpr f a, .callExpr f' a' => expr_beq f f' && expr_list_beq a a'
  | .arrayExpr a, .arrayExpr a' => expr_list_beq a a'
  | .hashExpr p, .hashExpr p' => expr_pair_list_beq p p'
  | .indexExpr a i, .indexExpr a' i' => expr_beq a a' && expr_beq i i'
  | .methodCallExpr o m a, .methodCallExpr o' m' a' =>
      expr_beq o o' && m == m' && expr_list_beq a a'
  | .structLiteral n f, .structLiteral n' f' =>
      n == n' && ident_expr_list_beq f f'
  | .thisExpr, .thisExpr => true
  | .fieldAccessExpr o f, .fieldAccessExpr o' f' => expr_beq o o' && f == f'
  | .whileExpr c b, .whileExpr c' b' => expr_beq c c' && stmt_list_beq b b'
  | .forExpr i it b, .forExpr i' it' b' =>
      i == i' && expr_beq it it' && stmt_list_beq b b'
  | .cStyleForExpr i c u b, .cStyleForExpr i' c' u' b' =>
      (match i, i' with
        | none, none => true
        | some x, some y => stmt_beq x y
        | _, _ => false) &&
      (match c, c' with
        | none, none => true
        | some x, some y => expr_beq x y
        | _, _ => false) &&
      (match u, u' with
        | none, none => true
        | some x, some y => stmt_beq x y
        | _, _ => false) &&
      stmt_list_beq b b'
  | .tryCatchExpr t ci cb fb, .tryCatchExpr t' ci' cb' fb' =>
      stmt_list_beq t t' && ci == ci' &&
      (match cb, cb' with
        | none, none => true
        | some x, some y => stmt_list_beq x y
        | _, _ => false) &&
      (match fb, fb' with
        | none, none => true
        | some x, some y => stmt_list_beq x y
        | _, _ => false)
  | .asyncFnExpr p b, .asyncFnExpr p' b' => p == p' && stmt_list_beq b b'
  | .awaitExpr e, .awaitExpr e' => expr_beq e e'
  | _, _ => false

/-- Structural equality on statement lists. -/
def stmt_list_beq : StmtList → StmtList → Bool
  | .nil, .nil => true
  | .cons s r, .cons s' r' => stmt_beq s s' && stmt_list_beq r r'
  | _, _ => false

/-- Structural equality on expression lists. -/
def expr_list_beq : ExprList → ExprList → Bool
  | .nil, .nil => true
  | .cons e r, .cons e' r' => expr_beq e e' && expr_list_beq r r'
  | _, _ => false

/-- Structural equality on expression pair lists. -/
def expr_pair_list_beq : ExprPairList → ExprPairList → Bool
  | .nil, .nil => true
  | .cons k v r, .cons k' v' r' =>
      expr_beq k k' && expr_beq v v' && expr_pair_list_beq r r'
  | _, _ => false

/-- Structural equality on named expression lists. -/
def ident_expr_list_beq : IdentExprList → IdentExprList → Bool
  | .nil, .nil => true
  | .cons n e r, .cons n' e' r' =>
      n == n' && expr_beq e e' && ident_expr_list_beq r r'
  | _, _ => false
end

mutual
/-- Runtime values, from src/interpreter/obj.rs `Object`.  Deviations forced
by the pure embedding: `builtin`, `builtinStd` and `builtinStdAsync` drop
the native function pointer (dispatch is by name, see `apply_builtin`
below); `function`, `asyncFunction` and `method` capture the environment
chain by value; `future` carries an abstract handle identity instead of the
`Arc<Mutex<Option<BoxFuture>>>` (the `PartialEq` impl never inspects it). -/
inductive Object : Type
  | integer (i : Int)
  | bigInteger (i : Int)
  | float (f : Float)
  | boolean (b : Bool)
  | string (s : String)
  | array (elems : ObjList)
  | hash (pairs : ObjPairList)
  | function (params : List String) (body : StmtList) (env : Environment)
  | asyncFunction (params : List String) (body : StmtList) (env : Environment)
  | builtin (name : String) (minP maxP : Nat)
  | builtinStd (name : String) (minP maxP : Nat)
  | builtinStdAsync (name : String) (minP maxP : Nat)
  | structObj (name : String) (fields : StrObjList) (methods : StrObjList)
  | moduleObj (name : String) (exports : StrObjList)
  | null
  | returnValue (o : Object)
  | error (e : RuntimeErr)
  | method (params : List String) (body : StmtList) (env : Environment)
  | breakObj
  | continueObj
  | thrownValue (o : Object)
  | future (id : Nat)

/-- Object sequences (`Vec<Object>`). -/
inductive ObjList : Type
  | nil
  | cons (o : Object) (rest : ObjList)

/-- Hash entries (`HashMap<Object, Object>` as an association list with
unique keys). -/
inductive ObjPairList : Type
  | nil
  | cons (k v : Object) (rest : ObjPairList)

/-- Name-keyed object maps (`HashMap<String, Object>` as an association list
with unique keys). -/
inductive StrObjList : Type
  | nil
  | cons (name : String) (o : Object) (rest : StrObjList)

/-- Environment frames, from src/interpreter/env.rs `Environment`: a store
plus an optional parent (`root` = no parent, `child` = `Some(outer)`). -/
inductive Environment : Type
  | root (store : StrObjList)
  | child (store : StrObjList) (parent : Environment)
end

mutual
/-- Structural size of an object; an upper bound on the recursion depth of
`obj_eq` below. -/
def obj_size : Object → Nat
  | .array a => 1 + obj_list_size a
  | .hash p => 1 + obj_pair_list_size p
  | .returnValue o => 1 + obj_size o
  | .thrownValue o => 1 + obj_size o
  | _ => 1

/-- Size of an object list. -/
def obj_list_size : ObjList → Nat
  | .nil => 0
  | .cons o r => 1 + obj_size o + obj_list_size r

/-- Size of a hash entry list. -/
def obj_pair_list_size : ObjPairList → Nat
  | .nil => 0
  | .cons k v r => 1 + obj_size k + obj_size v + obj_pair_list_size r
end

/-- Length of a name-keyed map. -/
def str_obj_length : StrObjList → Nat
  | .nil => 0
  | .cons _ _ r => 1 + str_obj_length r

/-- Keys of a name-keyed map, in order (`HashMap::keys().collect::<Vec<_>>()`
of the `Module` equality arm of src/interpreter/obj.rs). -/
def str_obj_keys : StrObjList → List String
  | .nil => []
  | .cons n _ r => n :: str_obj_keys r

/-- Length of a hash entry list. -/
def obj_pair_list_length : ObjPairList → Nat
  | .nil => 0
  | .cons _ _ r => 1 + obj_pair_list_length r

/-- Length of an object list. -/
def obj_list_length : ObjList → Nat
  | .nil => 0
  | .cons _ r => 1 + obj_list_length r

mutual
/-- Fuel-indexed object equality; `obj_eq` below instantiates the fuel with
a bound that always suffices (every recursive call strictly shrinks the
combined `obj_size`).  The arms mirror `impl PartialEq for Object` of
src/interpreter/obj.rs: `Struct` and `Method` values have no arm and fall
to the catch-all `false`; `Function`/`AsyncFunction` compare params and body
and ignore the captured environment; `Builtin` family compares name and
arity bounds (the function pointer cannot differ for equal names);
`Module` compares the name and the export key sequences; and
`(Future, Future)` is constantly `false`. -/
def obj_eq_fuel : Nat → Object → Object → Bool
  | 0, _, _ => false
  | _ + 1, .integer a, .integer b => a == b
  | _ + 1, .bigInteger a, .bigInteger b => a == b
  | _ + 1, .float a, .float b => a == b
  | _ + 1, .boolean a, .boolean b => a == b
  | _ + 1, .string a, .string b => a == b
  | f + 1, .array a, .array b => obj_list_eq_fuel f a b
  | f + 1, .hash a, .hash b =>
      obj_pair_list_length a == obj_pair_list_length b &&
        obj_pair_subset_fuel f a b
  | _ + 1, .null, .null => true
  | f + 1, .returnValue a, .returnValue b => obj_eq_fuel f a b
  | _ + 1, .error a, .error b => a == b
  | f + 1, .thrownValue a, .thrownValue b => obj_eq_fuel f a b
  | _ + 1, .builtin n a b, .builtin n' a' b' => n == n' && a == a' && b == b'
  | _ + 1, .builtinStd n a b, .builtinStd n' a' b' => n == n' && a == a' && b == b'
  | _ + 1, .builtinStdAsync n a b, .builtinStdAsync n' a' b' =>
      n == n' && a == a' && b == b'
  | _ + 1, .function p b _, .function p' b' _ => p == p' && stmt_list_beq b b'
  | _ + 1, .asyncFunction p b _, .asyncFunction p' b' _ =>
      p == p' && stmt_list_beq b b'
  | _ + 1, .breakObj, .breakObj => true
  | _ + 1, .continueObj, .continueObj => true
  | _ + 1, .future _, .future _ => false
  | _ + 1, .moduleObj n e, .moduleObj n' e' =>
      n == n' && str_obj_keys e == str_obj_keys e'
  | _ + 1, _, _ => false

/-- Element-wise equality of object lists (`Vec<Object>` equality). -/
def obj_list_eq_fuel : Nat → ObjList → ObjList → Bool
  | 0, _, _ => false
  | _ + 1, .nil, .nil => true
  | f + 1, .cons a r, .cons b r' => obj_eq_fuel f a b && obj_list_eq_fuel f r r'
  | _ + 1, _, _ => false

/-- Whether every entry of the first hash has an equal entry in the second
(`HashMap` equality iterates one side and looks keys up in the other). -/
def obj_pair_subset_fuel : Nat → ObjPairList → ObjPairList → Bool
  | 0, _, _ => false
  | _ + 1, .nil, _ => true
  | f + 1, .cons k v r, qs => obj_pair_find_fuel f k v qs && obj_pair_subset_fuel f r qs

/-- Whether the hash contains an entry whose key and value equal the given
ones. -/
def obj_pair_find_fuel : Nat → Object → Object → ObjPairList → Bool
  | 0, _, _, _ => false
  | _ + 1, _, _, .nil => false
  | f + 1, k, v, .cons k' v' rest =>
      (obj_eq_fuel f k k' && obj_eq_fuel f v v') || obj_pair_find_fuel f k v rest
end

/-- Object equality, from `impl PartialEq for Object` of
src/interpreter/obj.rs.  The fuel bound strictly exceeds every recursion
depth the comparison can reach, so the result never hits the fuel floor. -/
def obj_eq (a b : Object) : Bool :=
  obj_eq_fuel (obj_size a + obj_size b + 1) a b

/-- Type names, from src/interpreter/obj.rs `Object::type_name`. -/
def type_name : Object → String
  | .integer _ => "integer"
  | .bigInteger _ => "bigInteger"
  | .float _ => "float"
  | .boolean _ => "boolean"
  | .string _ => "string"
  | .array _ => "array"
  | .hash _ => "hash"
  | .function _ _ _ => "function"
  | .asyncFunction _ _ _ => "async function"
  | .builtin _ _ _ => "builtin function"
  | .builtinStd _ _ _ => "builtin function"
  | .builtinStdAsync _ _ _ => "async builtin function"
  | .null => "null"
  | .returnValue _ => "return value"
  | .error _ => "error"
  | .method _ _ _ => "method"
  | .structObj n _ _ => "struct " ++ n
  | .moduleObj n _ => "module " ++ n
  | .breakObj => "break"
  | .continueObj => "continue"
  | .thrownValue _ => "thrown value"
  | .future _ => "future"

/-- Unwrapping of a `ReturnValue`, from src/interpreter/obj.rs
`Object::returned` (the evaluator's `Evaluator::returned` does the same). -/
def returned : Object → Object
  | .returnValue o => o
  | o => o

/-- Lookup in a name-keyed map (`HashMap::get` on a store). -/
def store_get : StrObjList → String → Option Object
  | .nil, _ => none
  | .cons m o r, n => if m == n then some o else store_get r n

/-- Key-presence in a name-keyed map (`HashMap::contains_key`). -/
def store_contains (s : StrObjList) (n : String) : Bool :=
  (store_get s n).isSome

/-- Insert-or-replace in a name-keyed map (`HashMap::insert`). -/
def store_insert : StrObjList → String → Object → StrObjList
  | .nil, n, v => .cons n v .nil
  | .cons m o r, n, v =>
      if m == n then .cons m v r else .cons m o (store_insert r n v)

/-- Lookup along the frame chain, from src/interpreter/env.rs
`Environment::get`: the current store first, else the parent chain, else
nothing. -/
def Environment.get : Environment → String → Option Object
  | .root s, n => store_get s n
  | .child s p, n =>
      match store_get s n with
      | some o => some o
      | none => Environment.get p n

/-- Assignment along the frame chain, from src/interpreter/env.rs
`Environment::set`: update the current store when the name is present
there; otherwise, when the parent chain binds the name, recurse into the
parent; otherwise create the binding in the current store.  (For a root
frame the first and last arms both insert into the store.) -/
def Environment.set : Environment → String → Object → Environment
  | .root s, n, v => .root (store_insert s n v)
  | .child s p, n, v =>
      if store_contains s n then .child (store_insert s n v) p
      else if (Environment.get p n).isSome then .child s (Environment.set p n v)
      else .child (store_insert s n v) p

/-- Stand-in for `usize::MAX`, the upper arity bound of `print`/`println` in
src/interpreter/builtins/functions.rs. -/
def usize_max : Nat := 2 ^ 64 - 1

/-- The builtin registration table, from
src/interpreter/builtins/functions.rs `get_builtins`: each entry is the
name with its declared `(min_params, max_params)` arity window (the native
function pointer is dispatched by name, see `apply_builtin`).  The arities
are copied verbatim from the source, including `split` at `(1, 1)`,
`replace` at `(1, 1)` and `trim` at `(3, 3)`. -/
def get_builtins : List (String × Object) :=
  [ ("set_field", .builtin "set_field" 3 3)
  , ("get_field", .builtin "get_field" 2 2)
  , ("fields", .builtin "fields" 1 1)
  , ("name", .builtin "name" 1 1)
  , ("print", .builtin "print" 1 usize_max)
  , ("println", .builtin "println" 1 usize_max)
  , ("input", .builtin "input" 0 1)
  , ("type", .builtin "type" 1 1)
  , ("is_empty", .builtin "is_empty" 1 1)
  , ("split", .builtin "split" 1 1)
  , ("replace", .builtin "replace" 1 1)
  , ("trim", .builtin "trim" 3 3)
  , ("contains", .builtin "contains" 2 2)
  , ("slice", .builtin "slice" 2 3)
  , ("len", .builtin "len" 1 1)
  , ("head", .builtin "head" 1 1)
  , ("tail", .builtin "tail" 1 1)
  , ("cons", .builtin "cons" 2 2)
  , ("push", .builtin "push" 2 2)
  , ("pow", .builtin "pow" 2 2)
  , ("abs", .builtin "abs" 1 1)
  , ("min", .builtin "min" 2 2)
  , ("max", .builtin "max" 2 2)
  , ("keys", .builtin "keys" 1 1)
  , ("values", .builtin "values" 1 1)
  , ("clear", .builtin "clear" 1 1)
  ]

/-- Builtin seeding of a fresh store, from src/interpreter/env.rs
`fill_env_with_builtins`. -/
def builtins_store : StrObjList :=
  get_builtins.foldl (fun st p => store_insert st p.1 p.2) .nil

/-- Construction of a parentless frame, from src/interpreter/env.rs
`Environment::new`. -/
def Environment.new : Environment := .root builtins_store

/-- Construction of a child frame, from src/interpreter/env.rs
`Environment::new_with_outer`. -/
def Environment.new_with_outer (outer : Environment) : Environment :=
  .child builtins_store outer

/-- Range check of `BigInt::to_i64`: whether an integer fits a signed
64-bit machine word. -/
def fits_i64 (i : Int) : Bool := -(2 ^ 63) ≤ i && i < 2 ^ 63

/-- Renormalization of an integer result, from
src/interpreter/helpers/type_converters.rs `normalize_int`: back to
`Integer` when the value fits i64, else `BigInteger`. -/
def normalize_int (big : Int) : Object :=
  if fits_i64 big then .integer big else .bigInteger big

/-- Widening of an integer object, from
src/interpreter/helpers/type_converters.rs `to_bigint`. -/
def to_bigint : Object → Option Int
  | .integer i => some i
  | .bigInteger big => some big
  | _ => none

/-- Boolean coercion, from src/interpreter/helpers/type_converters.rs
`obj_to_bool` (no implicit truthiness). -/
def obj_to_bool : Object → Except Object Bool
  | .boolean b => .ok b
  | .error e => .error (.error e)
  | o => .error (.error (.typeMismatch "boolean" (type_name o)))

/-- Machine-integer coercion, from
src/interpreter/helpers/type_converters.rs `obj_to_int`. -/
def obj_to_int : Object → Except Object Int
  | .integer i => .ok i
  | .bigInteger big =>
      if fits_i64 big then .ok big
      else .error (.error (.invalidOperation "Integer too large to convert to i64"))
  | .error e => .error (.error e)
  | o => .error (.error (.typeMismatch "integer" (type_name o)))

/-- Float coercion, from src/interpreter/helpers/type_converters.rs
`obj_to_float`.  (`BigInt::to_f64` is modelled as `Float.ofInt`; its
`None` branch is unreachable for the embedding.) -/
def obj_to_float : Object → Except Object Float
  | .float f => .ok f
  | .integer i => .ok (Float.ofInt i)
  | .bigInteger big => .ok (Float.ofInt big)
  | .error e => .error (.error e)
  | o => .error (.error (.typeMismatch "numeric" (type_name o)))

/-- Callee filter, from src/interpreter/helpers/type_converters.rs
`obj_to_func`. -/
def obj_to_func : Object → Object
  | .function p b e => .function p b e
  | .asyncFunction p b e => .asyncFunction p b e
  | .builtin n a b => .builtin n a b
  | .builtinStd n a b => .builtinStd n a b
  | .error e => .error e
  | o => .error (.notCallable (type_name o))

/-- Hash-key filter, from src/interpreter/helpers/type_converters.rs
`obj_to_hash`. -/
def obj_to_hash : Object → Object
  | .integer i => .integer i
  | .bigInteger big => .bigInteger big
  | .boolean b => .boolean b
  | .string s => .string s
  | .error e => .error e
  | x => .error (.notHashable (type_name x))

/-- Whether an object is a `Float` (the `matches!(obj, Object::Float(_))`
test of src/interpreter/helpers/obj_operations.rs). -/
def is_float_obj : Object → Bool
  | .float _ => true
  | _ => false

/-- Shared mismatch error, from src/interpreter/helpers/obj_operations.rs
`type_mismatch_error`. -/
def type_mismatch_error (expected : String) (o1 o2 : Object) : Object :=
  .error (.typeMismatch expected (type_name o1 ++ " and " ++ type_name o2))

/-- Rust `f64 % f64` (sign follows the dividend).  No claim below states
anything about floating point; this stands in for the IEEE remainder. -/
def float_rem (a b : Float) : Float := a - b * (a / b).floor

/-- Body of the `gen_numeric_op!` macro of
src/interpreter/helpers/obj_operations.rs: propagate operand errors, run
the float path when either side is a `Float` (zero right operand of a
division-like operator is `DivisionByZero`), else the `BigInt` path through
`normalize_int` (both `Divide` and `Modulo` raise `DivisionByZero` on a
zero right operand - the macro's `$is_div` flag is shared), else a
`number` type mismatch. -/
def gen_numeric_op (iop : Int → Int → Int) (fop : Float → Float → Float)
    (is_div : Bool) (o1 o2 : Object) : Object :=
  match o1 with
  | .error _ => o1
  | _ =>
    match o2 with
    | .error _ => o2
    | _ =>
      if is_float_obj o1 || is_float_obj o2 then
        match obj_to_float o1 with
        | .error e => e
        | .ok f1 =>
          match obj_to_float o2 with
          | .error e => e
          | .ok f2 =>
            if is_div && f2 == 0.0 then .error .divisionByZero
            else .float (fop f1 f2)
      else
        match to_bigint o1, to_bigint o2 with
        | some b1, some b2 =>
            if is_div && b2 == 0 then .error .divisionByZero
            else normalize_int (iop b1 b2)
        | _, _ => type_mismatch_error "number" o1 o2

/-- Subtraction, from `gen_numeric_op! {object_subtract, -, false}`. -/
def object_subtract (o1 o2 : Object) : Object :=
  gen_numeric_op (· - ·) (· - ·) false o1 o2

/-- Multiplication, from `gen_numeric_op! {object_multiply, *, false}`. -/
def object_multiply (o1 o2 : Object) : Object :=
  gen_numeric_op (· * ·) (· * ·) false o1 o2

/-- Division, from `gen_numeric_op! {object_divide, /, true}` (`BigInt`
division truncates toward zero, hence `Int.tdiv`). -/
def object_divide (o1 o2 : Object) : Object :=
  gen_numeric_op Int.tdiv (· / ·) true o1 o2

/-- Remainder, from `gen_numeric_op! {object_modulo, %, true}` (`BigInt`
remainder keeps the dividend's sign, hence `Int.tmod`).  Note the zero
check raises `DivisionByZero`, not `ModuloByZero`. -/
def object_modulo (o1 o2 : Object) : Object :=
  gen_numeric_op Int.tmod float_rem true o1 o2

/-- Body of the `gen_compare_op!` macro of
src/interpreter/helpers/obj_operations.rs. -/
def gen_compare_op (iop : Int → Int → Bool) (fop : Float → Float → Bool)
    (o1 o2 : Object) : Object :=
  match o1 with
  | .error _ => o1
  | _ =>
    match o2 with
    | .error _ => o2
    | _ =>
      if is_float_obj o1 || is_float_obj o2 then
        match obj_to_float o1 with
        | .error e => e
        | .ok f1 =>
          match obj_to_float o2 with
          | .error e => e
          | .ok f2 => .boolean (fop f1 f2)
      else
        match to_bigint o1, to_bigint o2 with
        | some b1, some b2 => .boolean (iop b1 b2)
        | _, _ => type_mismatch_error "number" o1 o2

/-- Comparison `>`, from `gen_compare_op! {object_compare_gt, >}`. -/
def object_compare_gt (o1 o2 : Object) : Object :=
  gen_compare_op (· > ·) (· > ·) o1 o2

/-- Comparison `>=`, from `gen_compare_op! {object_compare_gte, >=}`. -/
def object_compare_gte (o1 o2 : Object) : Object :=
  gen_compare_op (· ≥ ·) (· ≥ ·) o1 o2

/-- Comparison `<`, from `gen_compare_op! {object_compare_lt, <}`. -/
def object_compare_lt (o1 o2 : Object) : Object :=
  gen_compare_op (· < ·) (· < ·) o1 o2

/-- Comparison `<=`, from `gen_compare_op! {object_compare_lte, <=}`. -/
def object_compare_lte (o1 o2 : Object) : Object :=
  gen_compare_op (· ≤ ·) (· ≤ ·) o1 o2

/-- Addition, from src/interpreter/helpers/obj_operations.rs `object_add`:
error propagation, the float path, string concatenation, the integer path,
else an `InvalidOperation`. -/
def object_add (o1 o2 : Object) : Object :=
  match o1 with
  | .error _ => o1
  | _ =>
    match o2 with
    | .error _ => o2
    | _ =>
      if is_float_obj o1 || is_float_obj o2 then
        match obj_to_float o1 with
        | .error e => e
        | .ok f1 =>
          match obj_to_float o2 with
          | .error e => e
          | .ok f2 => .float (f1 + f2)
      else
        match o1, o2 with
        | .string s1, .string s2 => .string (s1 ++ s2)
        | _, _ =>
          match to_bigint o1, to_bigint o2 with
          | some b1, some b2 => normalize_int (b1 + b2)
          | _, _ =>
            .error (.invalidOperation
              ("cannot add " ++ type_name o1 ++ " and " ++ type_name o2))

/-- Lookup in a hash (`HashMap::get` keyed by `Object` equality). -/
def hash_get : ObjPairList → Object → Option Object
  | .nil, _ => none
  | .cons k v r, key => if obj_eq key k then some v else hash_get r key

/-- Insert-or-replace in a hash (`HashMap::insert`). -/
def hash_insert : ObjPairList → Object → Object → ObjPairList
  | .nil, key, v => .cons key v .nil
  | .cons k w r, key, v =>
      if obj_eq key k then .cons k v r else .cons k w (hash_insert r key v)

/-- Removal from a hash (`HashMap::remove`): the removed value, if any, and
the remaining entries. -/
def hash_remove : ObjPairList → Object → Option Object × ObjPairList
  | .nil, _ => (none, .nil)
  | .cons k v r, key =>
      if obj_eq key k then (some v, r)
      else
        match hash_remove r key with
        | (found, r') => (found, .cons k v r')

/-- Conversion of a Lean list of objects to an `ObjList`. -/
def obj_list_of : List Object → ObjList
  | [] => .nil
  | o :: r => .cons o (obj_list_of r)

/-- Element membership in an object array (`Vec::contains`, which compares
with the `PartialEq` of `Object`). -/
def obj_list_contains : ObjList → Object → Bool
  | .nil, _ => false
  | .cons o r, item => obj_eq o item || obj_list_contains r item

/-- Indexing into an object array (`Vec` index). -/
def obj_list_nth : ObjList → Nat → Option Object
  | .nil, _ => none
  | .cons o _, 0 => some o
  | .cons _ r, n + 1 => obj_list_nth r n

/-- In-place element update of an object array (`arr[idx] = value`). -/
def obj_list_set : ObjList → Nat → Object → ObjList
  | .nil, _, _ => .nil
  | .cons _ r, 0, v => .cons v r
  | .cons o r, n + 1, v => .cons o (obj_list_set r n v)

/-- Prefix test on character lists (`str::starts_with`).  The string
operations of the Rust sources (`split`, `trim`, `replace`, `contains`)
are modelled over character lists because the corresponding `String`
functions of the Lean core library do not reduce inside the kernel. -/
def starts_with_list : List Char → List Char → Bool
  | _, [] => true
  | [], _ :: _ => false
  | c :: s, p :: ps => c == p && starts_with_list s ps

/-- Substring occurrence on character lists (`str::contains`). -/
def list_contains_sub : List Char → List Char → Bool
  | s, sub =>
    starts_with_list s sub ||
      match s with
      | [] => false
      | _ :: t => list_contains_sub t sub

/-- Rust `str::contains` on strings. -/
def contains_substr (s sub : String) : Bool :=
  list_contains_sub s.toList sub.toList

/-- Splitting rounds of `str::split` with a non-empty pattern, fueled by
the haystack length (each round consumes at least one character). -/
def split_go (sep : List Char) : Nat → List Char → List Char → List (List Char)
  | 0, acc, s => [acc ++ s]
  | f + 1, acc, s =>
      if starts_with_list s sep then
        acc :: split_go sep f [] (s.drop sep.length)
      else
        match s with
        | [] => [acc]
        | c :: t => split_go sep f (acc ++ [c]) t

/-- Rust `str::split` collected into a vector: every maximal piece between
occurrences of the pattern; the empty pattern matches at every character
boundary, the ends included. -/
def rust_split (s sep : String) : List String :=
  match sep.toList with
  | [] => "" :: (s.toList.map fun c => String.singleton c) ++ [""]
  | p :: ps => (split_go (p :: ps) (s.toList.length + 1) [] s.toList).map String.mk

/-- Rust `str::trim`: whitespace stripped off both ends. -/
def rust_trim (s : String) : String :=
  String.mk (((s.toList.dropWhile Char.isWhitespace).reverse.dropWhile
    Char.isWhitespace).reverse)

/-- Replacement rounds of `str::replace` with a non-empty pattern, fueled
by the haystack length. -/
def replace_go (pat repl : List Char) : Nat → List Char → List Char
  | 0, s => s
  | f + 1, s =>
      if starts_with_list s pat then
        repl ++ replace_go pat repl f (s.drop pat.length)
      else
        match s with
        | [] => []
        | c :: t => c :: replace_go pat repl f t

/-- Rust `str::replace` (an empty pattern leaves the string unchanged,
matching the Lean core behavior; the Rust empty-pattern interleaving is
unexercised by every claim). -/
def rust_replace (s pat repl : String) : String :=
  match pat.toList with
  | [] => s
  | p :: ps => String.mk (replace_go (p :: ps) repl.toList (s.toList.length + 1) s.toList)

/-- Native `split`, from src/interpreter/builtins/impls/string.rs
`bsplit_fn`: needs a string and a string delimiter as its first two
arguments (a present but non-string first argument reuses the
string-expectation message; a missing second argument is unreachable
through the registered arity window). -/
def bsplit_fn (args : List Object) : Except String Object :=
  match args with
  | .string s :: .string delimiter :: _ =>
      .ok (.array (obj_list_of ((rust_split s delimiter).map Object.string)))
  | o :: _ => .error ("split() expects string, got " ++ type_name o)
  | [] => .error "split() expects 2 arguments, got 1"

/-- Native `trim`, from src/interpreter/builtins/impls/string.rs `btrim_fn`:
trims ASCII whitespace off its first argument, which must be a string. -/
def btrim_fn (args : List Object) : Except String Object :=
  match args with
  | .string s :: _ => .ok (.string (rust_trim s))
  | o :: _ => .error ("trim() expects string, got " ++ type_name o)
  | [] => .error "trim() expects 1 argument, got 0"

/-- Native `replace`, from src/interpreter/builtins/impls/string.rs
`breplace_fn`.  The source matches a triple of iterator `next()` results;
its `(None, Some, Some)` and `(None-tail)` arms are unreachable from an
iterator, so the reachable arms are the full match, the
string-expectation arm and the empty-argument arm (whose Rust catch-all
text reads "got 3"). -/
def breplace_fn (args : List Object) : Except String Object :=
  match args with
  | .string s :: .string old :: .string new :: _ =>
      .ok (.string (rust_replace s old new))
  | o :: _ => .error ("replace() expects string, got " ++ type_name o)
  | [] => .error "replace() expects 3 arguments, got 3"

/-- Native `contains`, from src/interpreter/builtins/impls/shared.rs
`bcontains_fn`. -/
def bcontains_fn (args : List Object) : Except String Object :=
  match args with
  | .string s :: .string sub :: _ => .ok (.boolean (contains_substr s sub))
  | .array arr :: item :: _ => .ok (.boolean (obj_list_contains arr item))
  | o :: _ => .error ("contains() expects string or array, got " ++ type_name o)
  | [] => .error "contains() expects 2 arguments, got 1"

/-- Slice-window computation shared by both `bslice_fn` arms: resolve the
negative-relative start and end against the length, check the bounds, and
return the half-open window.  (The Rust code indexes with the resolved
bounds directly and would panic on a start below `-len`; the embedding is
total and the window extraction below simply yields the clamped segment,
which no claim exercises.) -/
def slice_window (len : Int) (start : Int) (endOpt : Option Object) :
    Except String (Int × Int) :=
  let start := if start < 0 then len + start else start
  match endOpt with
  | some (.integer e) =>
      let e := if e < 0 then len + e else e
      if start > len || e > len || start > e then .error "slice() indices out of bounds"
      else .ok (start, e)
  | none =>
      if start > len || len > len || start > len then .error "slice() indices out of bounds"
      else .ok (start, len)
  | some o => .error ("slice() end must be integer, got " ++ type_name o)

/-- List window extraction (`&v[start..end]`). -/
def obj_list_window : ObjList → Nat → Nat → ObjList
  | .nil, _, _ => .nil
  | .cons _ _, _, 0 => .nil
  | .cons o r, 0, e + 1 => .cons o (obj_list_window r 0 e)
  | .cons _ r, s + 1, e + 1 => obj_list_window r s e

/-- Native `slice`, from src/interpreter/builtins/impls/shared.rs
`bslice_fn`. -/
def bslice_fn (args : List Object) : Except String Object :=
  match args with
  | .string s :: .integer start :: rest =>
      let chars := s.toList
      match slice_window chars.length start rest.head? with
      | .error e => .error e
      | .ok (a, b) =>
          .ok (.string (String.mk ((chars.drop a.toNat).take (b - a).toNat)))
  | .array arr :: .integer start :: rest =>
      match slice_window (obj_list_length arr) start rest.head? with
      | .error e => .error e
      | .ok (a, b) => .ok (.array (obj_list_window arr a.toNat b.toNat))
  | o :: _ => .error ("slice() expects string or array, got " ++ type_name o)
  | [] => .error "slice() expects at least 2 arguments, got 1"

/-- Dispatch of a registered builtin to its native implementation: the model
of the function pointer carried by `Object::Builtin`.  Only the native
functions a claim exercises are embedded; calling any other name yields a
marked error (no claim's theorem reaches one). -/
def apply_builtin (name : String) (args : List Object) : Except String Object :=
  match name with
  | "split" => bsplit_fn args
  | "replace" => breplace_fn args
  | "trim" => btrim_fn args
  | "contains" => bcontains_fn args
  | "slice" => bslice_fn args
  | _ => .error ("builtin '" ++ name ++ "' is not modelled in this embedding")

/-- Modules, from src/interpreter/module_registry.rs `Module`. -/
structure ModuleVal : Type where
  name : String
  exports : StrObjList

/-- Canonical module path (`path.join("::")`). -/
def join_path (path : List String) : String := String.intercalate "::" path

/-- Modelled from the spec: module resolution
(src/interpreter/module_registry.rs `load_module` looks the canonical path
up in the loaded-module cache, then in the stdlib map, and otherwise reads,
lexes, parses and evaluates a `.giu` file - asynchronous file I/O that a
pure embedding cannot perform).  The model keeps one map from canonical
path to module and reports a missing module through the same
`InvalidOperation` channel the file loader uses. -/
def load_module (registry : List (String × ModuleVal)) (path : List String) :
    Except RuntimeErr ModuleVal :=
  let module_path := join_path path
  match registry.find? (fun p => p.1 == module_path) with
  | some p => .ok p.2
  | none =>
      .error (.invalidOperation ("Failed to load module '" ++ module_path ++ "': not found"))

/-- The evaluator state, from src/interpreter/eval.rs `Evaluator` (the
current async revision carries the environment handle, the module-registry
handle and the `in_async_context` flag used by
src/interpreter/helpers/eval_functions.rs). -/
structure Evaluator : Type where
  env : Environment
  module_registry : List (String × ModuleVal)
  in_async_context : Bool

/-- Frame restoration: the by-value counterpart of reassigning the saved
`old_env` handle after a scoped evaluation (the parent component of the
finished chain carries every mutation the scope made through the chain). -/
def env_pop : Environment → Environment
  | .child _ p => p
  | .root s => .root s

/-- Identifier binding, from src/interpreter/helpers/eval_misc.rs
`register_ident`. -/
def register_ident (ev : Evaluator) (name : String) (object : Object) :
    Evaluator × Object :=
  ({ ev with env := ev.env.set name object }, object)

/-- Literal evaluation, from src/interpreter/helpers/eval_expressions.rs
`eval_literal`. -/
def eval_literal : Lit → Object
  | .intLit i => .integer i
  | .bigIntLit big => .bigInteger big
  | .floatLit f => .float f
  | .boolLit b => .boolean b
  | .stringLit s => .string s
  | .nullLit => .null

/-- Identifier evaluation, from src/interpreter/helpers/eval_expressions.rs
`eval_ident`. -/
def eval_ident (ev : Evaluator) (name : String) : Object :=
  match ev.env.get name with
  | some o => o
  | none => .error (.undefinedVariable name)

/-- Evaluation of `this`, from src/interpreter/helpers/eval_expressions.rs
`eval_this`. -/
def eval_this (ev : Evaluator) : Object :=
  match ev.env.get "this" with
  | some obj => obj
  | none => .error (.invalidOperation "'this' can only be used inside a method")

/-- Prefix-operator application to an evaluated operand, from
src/interpreter/helpers/eval_expressions.rs `eval_prefix` (the part after
the operand evaluation): `!` demands a boolean, unary `+` passes numerics
through, unary `-` negates with `checked_neg` on `Integer` (whose only
failure, `i64::MIN`, widens to `BigInteger`) and renormalizes a negated
`BigInteger`. -/
def eval_prefix_core (op : PrefixOp) (object : Object) : Object :=
  match op with
  | .notOp =>
      match obj_to_bool object with
      | .ok b => .boolean (!b)
      | .error err => err
  | .prefixPlus =>
      match object with
      | .integer i => .integer i
      | .bigInteger big => .bigInteger big
      | .float f => .float f
      | .error e => .error e
      | o => .error (.typeMismatch "integer" (type_name o))
  | .prefixMinus =>
      match object with
      | .integer i =>
          if i == -(2 ^ 63) then .bigInteger (-i) else .integer (-i)
      | .bigInteger big => normalize_int (-big)
      | .float f => .float (-f)
      | .error e => .error e
      | o => .error (.typeMismatch "integer" (type_name o))

/-- Infix-operator application to evaluated operands, from
src/interpreter/helpers/eval_expressions.rs `eval_infix` (the part after
the operand evaluations): arithmetic and comparisons dispatch to
obj_operations.rs, `==`/`!=` use the `PartialEq` of `Object`, and
`&&`/`||` coerce both sides to booleans. -/
def eval_infix_core (op : InfixOp) (object1 object2 : Object) : Object :=
  match op with
  | .plus => object_add object1 object2
  | .minus => object_subtract object1 object2
  | .divide => object_divide object1 object2
  | .multiply => object_multiply object1 object2
  | .modulo => object_modulo object1 object2
  | .equal => .boolean (obj_eq object1 object2)
  | .notEqual => .boolean (!obj_eq object1 object2)
  | .greaterThanEqual => object_compare_gte object1 object2
  | .greaterThan => object_compare_gt object1 object2
  | .lessThanEqual => object_compare_lte object1 object2
  | .lessThan => object_compare_lt object1 object2
  | .andOp =>
      match obj_to_bool object1, obj_to_bool object2 with
      | .ok b1, .ok b2 => .boolean (b1 && b2)
      | .error err, _ => err
      | _, .error err => err
  | .orOp =>
      match obj_to_bool object1, obj_to_bool object2 with
      | .ok b1, .ok b2 => .boolean (b1 || b2)
      | .error err, _ => err
      | _, .error err => err

/-- Import binding, from src/interpreter/helpers/eval_misc.rs `eval_import`
(the current async revision): load the module, then bind - `All` binds a
`Module` value carrying every export under the last path segment;
`Specific` collects exactly the requested exports (an unknown name is an
`InvalidOperation`) and binds a `Module` value carrying them under the last
path segment; `Single` binds the one export under its own name. -/
def select_exports (mname : String) (names : List String) (exports : StrObjList) :
    Except RuntimeErr StrObjList :=
  match names with
  | [] => .ok .nil
  | n :: rest =>
      match store_get exports n with
      | some obj =>
          match select_exports mname rest exports with
          | .ok tail => .ok (.cons n obj tail)
          | .error e => .error e
      | none =>
          .error (.invalidOperation ("Module " ++ mname ++ " has no export '" ++ n ++ "'"))

/-- Import statement evaluation, from src/interpreter/helpers/eval_misc.rs
`eval_import` (see `select_exports` for the `Specific` collection loop). -/
def eval_import (ev : Evaluator) (path : List String) (items : ImportItemsK) :
    Evaluator × Object :=
  match load_module ev.module_registry path with
  | .error e => (ev, .error e)
  | .ok module =>
    let simple_name := (path.getLast?).getD ""
    match items with
    | .all =>
        let module_obj := Object.moduleObj (join_path path) module.exports
        ({ ev with env := ev.env.set simple_name module_obj }, .null)
    | .specific names =>
        match select_exports module.name names module.exports with
        | .error e => (ev, .error e)
        | .ok exports =>
            let module_obj := Object.moduleObj (join_path path) exports
            ({ ev with env := ev.env.set simple_name module_obj }, .null)
    | .single name =>
        match store_get module.exports name with
        | some obj => ({ ev with env := ev.env.set name obj }, .null)
        | none =>
            (ev, .error (.invalidOperation
              ("Module " ++ module.name ++ " has no export '" ++ name ++ "'")))

/-- Control-flow values: `ReturnValue`, `Break`, `Continue`, `Error` and
`ThrownValue` (spec section 3.3). -/
def is_control_flow : Object → Bool
  | .returnValue _ => true
  | .breakObj => true
  | .continueObj => true
  | .error _ => true
  | .thrownValue _ => true
  | _ => false

/-- Override rule of the finally clause, from
src/interpreter/helpers/eval_control_flow.rs `eval_try_catch_expr` lines
172-179: a control-flow value produced by the finally body replaces the
pending result; anything else keeps it. -/
def finally_override (try_result finally_result : Object) : Object :=
  match finally_result with
  | .returnValue o => .returnValue o
  | .breakObj => .breakObj
  | .continueObj => .continueObj
  | .thrownValue o => .thrownValue o
  | .error e => .error e
  | _ => try_result

/-- Completion of a try expression, from
src/interpreter/helpers/eval_control_flow.rs `eval_try_catch_expr` lines
184-191: a surviving `ThrownValue` propagates as is, the other control-flow
values return unwrapped as is, and a plain value passes through
`returned`. -/
def try_finish (final_result : Object) : Object :=
  match final_result with
  | .thrownValue o => .thrownValue o
  | .returnValue o => .returnValue o
  | .breakObj => .breakObj
  | .continueObj => .continueObj
  | .error e => .error e
  | o => returned o

/-- Modelled placeholder for src/interpreter/builtins/methods.rs
`BuiltinMethods::call_method`, the fall-back builtin-method table of
src/interpreter/helpers/structs.rs `eval_method_call`.  No claim exercises
builtin methods, so the dispatch is represented by a marked error. -/
def builtin_method_call (_object : Object) (method_name : String)
    (_args : List Object) : Except RuntimeErr Object :=
  .error (.invalidOperation
    ("builtin method '" ++ method_name ++ "' is not modelled in this embedding"))

/-- Modelled placeholder for the stdlib-native dispatch behind
`Object::BuiltinStd` (src/std/*.rs are external collaborators in the
spec's scoping).  No claim exercises a stdlib builtin. -/
def apply_std_builtin (name : String) (_args : List Object) :
    Except RuntimeErr Object :=
  .error (.invalidOperation ("std builtin '" ++ name ++ "' is not modelled"))

/-- Length of an expression list (`Vec::len` on call arguments). -/
def expr_list_length : ExprList → Nat
  | .nil => 0
  | .cons _ r => 1 + expr_list_length r

/-- Characters of a string as one-character string objects, from the
`Object::String` arm of src/interpreter/helpers/eval_control_flow.rs
`eval_for`. -/
def str_chars_objs (s : String) : ObjList :=
  obj_list_of (s.toList.map fun c => Object.string (String.singleton c))

/-- Container update of an index assignment (the `match current_value` of
src/interpreter/helpers/data_structures.rs `eval_index_assign`): arrays
demand a non-negative in-range machine integer, hashes a hashable key. -/
def index_assign_update (current_value index value : Object) :
    Except Object Object :=
  match current_value with
  | .array arr =>
      match obj_to_int index with
      | .ok idx_num =>
          if idx_num < 0 then
            .error (.error (.indexOutOfBounds idx_num (obj_list_length arr)))
          else if obj_list_length arr ≤ idx_num.toNat then
            .error (.error (.indexOutOfBounds idx_num (obj_list_length arr)))
          else
            .ok (.array (obj_list_set arr idx_num.toNat value))
      | .error err => .error err
  | .hash h =>
      match obj_to_hash index with
      | .error e => .error (.error e)
      | key => .ok (.hash (hash_insert h key value))
  | other =>
      .error (.error (.invalidOperation ("Cannot index into " ++ type_name other)))

mutual
/-- Expression dispatch of the evaluator.  The arms plumb to the helper
functions exactly as the `eval_expr` match of src/interpreter/eval.rs does
for the constructs that file has; the arms the stale copy predates
(`TryCatchExpr`, `CStyleForExpr`, `AsyncFnExpr`, `AwaitExpr`,
`MethodCallExpr` and friends) dispatch to the helpers of
src/interpreter/helpers/ that implement them.  `AwaitExpr` and the
async-call path suspend on `tokio` futures and are not representable in a
pure embedding: they yield a marked error that no claim's theorem
touches. -/
def eval_expr : Nat → Evaluator → Expr → Option (Evaluator × Object)
  | 0, _, _ => none
  | f + 1, ev, e =>
    match e with
    | .identExpr n => some (ev, eval_ident ev n)
    | .litExpr l => some (ev, eval_literal l)
    | .prefixExpr op e1 => eval_prefix_expr f ev op e1
    | .infixExpr op e1 e2 => eval_infix_expr f ev op e1 e2
    | .ifExpr cond conse alter => eval_if f ev cond conse alter
    | .fnExpr params body => some (ev, .function params body ev.env)
    | .callExpr fn_exp arguments => eval_call f ev fn_exp arguments
    | .arrayExpr exprs => eval_array f ev exprs
    | .hashExpr pairs => eval_hash_pairs f ev pairs .nil
    | .indexExpr arr idx => eval_index f ev arr idx
    | .methodCallExpr object m arguments => eval_method_call f ev object m arguments
    | .structLiteral n fields => eval_struct_literal f ev n fields
    | .thisExpr => some (ev, eval_this ev)
    | .fieldAccessExpr object field => eval_field_access f ev object field
    | .whileExpr cond body => eval_while f ev cond body
    | .forExpr ident iterable body => eval_for f ev ident iterable body
    | .cStyleForExpr init cond update body => eval_c_style_for f ev init cond update body
    | .tryCatchExpr tb ci cb fb => eval_try_catch_expr f ev tb ci cb fb
    | .asyncFnExpr params body => some (ev, .asyncFunction params body ev.env)
    | .awaitExpr _ =>
        some (ev, .error (.invalidOperation
          "await evaluation suspends on a tokio future and is not modelled"))

/-- Statement dispatch of the evaluator, following `eval_statement` of
src/interpreter/eval.rs extended by the helper-implemented statements.
Modelled from the spec (section 4.4) where the dispatching file is absent:
`ExprStmt` discards a non-control-flow value (the block then yields
`Null`), `ExprValueStmt` keeps it, `Return(e)` wraps in `ReturnValue`,
`Throw(e)` wraps in `ThrownValue`, and `Fn` binds a capturing `Function`
like `Let` binds its value. -/
def eval_statement : Nat → Evaluator → Stmt → Option (Evaluator × Object)
  | 0, _, _ => none
  | f + 1, ev, s =>
    match s with
    | .exprStmt e =>
        match eval_expr f ev e with
        | none => none
        | some (ev1, o) =>
            if is_control_flow o then some (ev1, o) else some (ev1, .null)
    | .exprValueStmt e => eval_expr f ev e
    | .returnStmt e =>
        match eval_expr f ev e with
        | none => none
        | some (ev1, o) => some (ev1, .returnValue o)
    | .letStmt n e =>
        match eval_expr f ev e with
        | none => none
        | some (ev1, o) => some (register_ident ev1 n o)
    | .assignStmt n e =>
        if (ev.env.get n).isNone then
          some (ev, .error (.undefinedVariable n))
        else
          match eval_expr f ev e with
          | none => none
          | some (ev1, o) => some (register_ident ev1 n o)
    | .fnStmt n params body =>
        some (register_ident ev n (.function params body ev.env))
    | .structStmt n fields methods => eval_struct_def f ev n fields methods
    | .importStmt path items => some (eval_import ev path items)
    | .breakStmt => some (ev, .breakObj)
    | .continueStmt => some (ev, .continueObj)
    | .throwStmt e =>
        match eval_expr f ev e with
        | none => none
        | some (ev1, o) => some (ev1, .thrownValue o)
    | .fieldAssignStmt object field value => eval_field_assign f ev object field value
    | .indexAssignStmt target index value => eval_index_assign f ev target index value

/-- Modelled from the spec: block evaluation (spec section 4.4,
`eval_block`).  The current async evaluator's `eval_blockstmt` is not among
the files under src/ (src/src/interpreter/eval.rs holds a stale synchronous
revision predating `throw`, whose stop set lacks `ThrownValue`; the spec
and the interpreter's own try/catch tests - `test_try_throw_catch` in
src/interpreter/mod.rs expects the statement after a `throw` to be skipped
- fix the stop set as all five control-flow values).  Structure follows the
stale revision: empty block yields `Null`, a one-statement block yields
that statement's result, and a longer block stops at the first control-flow
value. -/
def eval_blockstmt : Nat → Evaluator → StmtList → Option (Evaluator × Object)
  | 0, _, _ => none
  | _ + 1, ev, .nil => some (ev, .null)
  | f + 1, ev, .cons s .nil => eval_statement f ev s
  | f + 1, ev, .cons s rest =>
      match eval_statement f ev s with
      | none => none
      | some (ev1, o) =>
          if is_control_flow o then some (ev1, o) else eval_blockstmt f ev1 rest

/-- Prefix evaluation, from src/interpreter/helpers/eval_expressions.rs
`eval_prefix`: evaluate the operand, then apply `eval_prefix_core`. -/
def eval_prefix_expr : Nat → Evaluator → PrefixOp → Expr → Option (Evaluator × Object)
  | 0, _, _, _ => none
  | f + 1, ev, op, e =>
      match eval_expr f ev e with
      | none => none
      | some (ev1, object) => some (ev1, eval_prefix_core op object)

/-- Infix evaluation, from src/interpreter/helpers/eval_expressions.rs
`eval_infix`: evaluate both operands left to right, then apply
`eval_infix_core`. -/
def eval_infix_expr : Nat → Evaluator → InfixOp → Expr → Expr → Option (Evaluator × Object)
  | 0, _, _, _, _ => none
  | f + 1, ev, op, e1, e2 =>
      match eval_expr f ev e1 with
      | none => none
      | some (ev1, o1) =>
          match eval_expr f ev1 e2 with
          | none => none
          | some (ev2, o2) => some (ev2, eval_infix_core op o1 o2)

/-- Conditional evaluation, from src/interpreter/helpers/eval_control_flow.rs
`eval_if`. -/
def eval_if : Nat → Evaluator → Expr → StmtList → Option StmtList →
    Option (Evaluator × Object)
  | 0, _, _, _, _ => none
  | f + 1, ev, cond, conse, maybe_alter =>
      match eval_expr f ev cond with
      | none => none
      | some (ev1, object) =>
          match obj_to_bool object with
          | .ok b =>
              if b then eval_blockstmt f ev1 conse
              else
                match maybe_alter with
                | some else_conse => eval_blockstmt f ev1 else_conse
                | none => some (ev1, .null)
          | .error err => some (ev1, err)

/-- While-loop evaluation, from src/interpreter/helpers/eval_control_flow.rs
`eval_while`: reevaluate the condition each round; a `Break` body result
yields `Null`, `Continue` loops, `ReturnValue` and `Error` propagate, and
every other body result (a `ThrownValue` included) loops. -/
def eval_while : Nat → Evaluator → Expr → StmtList → Option (Evaluator × Object)
  | 0, _, _, _ => none
  | f + 1, ev, cond, body =>
      match eval_expr f ev cond with
      | none => none
      | some (ev1, cond_result) =>
          match obj_to_bool cond_result with
          | .ok true =>
              match eval_blockstmt f ev1 body with
              | none => none
              | some (ev2, result) =>
                  match result with
                  | .breakObj => some (ev2, .null)
                  | .returnValue o => some (ev2, .returnValue o)
                  | .error e => some (ev2, .error e)
                  | _ => eval_while f ev2 cond body
          | .ok false => some (ev1, .null)
          | .error e => some (ev1, e)

/-- For-in evaluation, from src/interpreter/helpers/eval_control_flow.rs
`eval_for`: arrays iterate element-wise, strings character-wise, anything
else is an `InvalidOperation`. -/
def eval_for : Nat → Evaluator → String → Expr → StmtList → Option (Evaluator × Object)
  | 0, _, _, _, _ => none
  | f + 1, ev, ident, iterable, body =>
      match eval_expr f ev iterable with
      | none => none
      | some (ev1, iter_obj) =>
          match iter_obj with
          | .array arr => eval_for_loop f ev1 ident arr body
          | .string s => eval_for_loop f ev1 ident (str_chars_objs s) body
          | o =>
              some (ev1, .error (.invalidOperation
                ("cannot iterate over " ++ type_name o)))

/-- Iteration rounds of a for-in loop (the `for item in items` body of
`eval_for`): bind the loop variable through the chain-walking `set`, run
the body, and handle control flow as in `eval_while`. -/
def eval_for_loop : Nat → Evaluator → String → ObjList → StmtList →
    Option (Evaluator × Object)
  | 0, _, _, _, _ => none
  | _ + 1, ev, _, .nil, _ => some (ev, .null)
  | f + 1, ev, ident, .cons item rest, body =>
      let ev1 := { ev with env := ev.env.set ident item }
      match eval_blockstmt f ev1 body with
      | none => none
      | some (ev2, result) =>
          match result with
          | .breakObj => some (ev2, .null)
          | .returnValue o => some (ev2, .returnValue o)
          | .error e => some (ev2, .error e)
          | _ => eval_for_loop f ev2 ident rest body

/-- C-style for evaluation, from
src/interpreter/helpers/eval_control_flow.rs `eval_c_style_for`: the
initializer runs once (an `Error` aborts), then the loop rounds. -/
def eval_c_style_for : Nat → Evaluator → Option Stmt → Option Expr → Option Stmt →
    StmtList → Option (Evaluator × Object)
  | 0, _, _, _, _, _ => none
  | f + 1, ev, init, cond, update, body =>
      match init with
      | some init_stmt =>
          match eval_statement f ev init_stmt with
          | none => none
          | some (ev1, result) =>
              match result with
              | .error e => some (ev1, .error e)
              | _ => eval_c_for_loop f ev1 cond update body
      | none => eval_c_for_loop f ev cond update body

/-- Loop rounds of a C-style for (the `loop` of `eval_c_style_for`): an
absent condition means `true`, a non-boolean condition is a
`TypeMismatch`, the body handles control flow as in `eval_while` except
that `Continue` still runs the update, and an `Error` from the update
aborts. -/
def eval_c_for_loop : Nat → Evaluator → Option Expr → Option Stmt → StmtList →
    Option (Evaluator × Object)
  | 0, _, _, _, _ => none
  | f + 1, ev, cond, update, body =>
      let should_continue : Option (Evaluator × Object) ⊕ (Evaluator × Bool) :=
        match cond with
        | some cond_expr =>
            match eval_expr f ev cond_expr with
            | none => Sum.inl none
            | some (ev1, .boolean b) => Sum.inr (ev1, b)
            | some (ev1, .error e) => Sum.inl (some (ev1, .error e))
            | some (ev1, _) =>
                Sum.inl (some (ev1, .error (.typeMismatch "boolean" "non-boolean")))
        | none => Sum.inr (ev, true)
      match should_continue with
      | Sum.inl r => r
      | Sum.inr (ev1, false) => some (ev1, .null)
      | Sum.inr (ev1, true) =>
          match eval_blockstmt f ev1 body with
          | none => none
          | some (ev2, result) =>
              match result with
              | .breakObj => some (ev2, .null)
              | .returnValue o => some (ev2, .returnValue o)
              | .error e => some (ev2, .error e)
              | _ =>
                  match update with
                  | some update_stmt =>
                      match eval_statement f ev2 update_stmt with
                      | none => none
                      | some (ev3, u) =>
                          match u with
                          | .error e => some (ev3, .error e)
                          | _ => eval_c_for_loop f ev3 cond update body
                  | none => eval_c_for_loop f ev2 cond update body

/-- Try/catch phase of a try expression, from
src/interpreter/helpers/eval_control_flow.rs `eval_try_catch_expr` lines
147-168: evaluate the try body; a `ThrownValue` surrenders its payload and
an `Error` passes whole as the caught exception; when both a catch binder
and a catch body are present, evaluate the catch body in a fresh child
scope into which the binder is `set`, and its result replaces the try
result. -/
def try_catch_phase : Nat → Evaluator → StmtList → Option String → Option StmtList →
    Option (Evaluator × Object)
  | 0, _, _, _, _ => none
  | f + 1, ev, try_body, catch_ident, catch_body =>
      match eval_blockstmt f ev try_body with
      | none => none
      | some (ev1, try_result) =>
          let caught : Option Object :=
            match try_result with
            | .thrownValue ex => some ex
            | .error err => some (.error err)
            | _ => none
          match caught, catch_ident, catch_body with
          | some exception, some e_name, some c_body =>
              let new_env := (Environment.new_with_outer ev1.env).set e_name exception
              match eval_blockstmt f { ev1 with env := new_env } c_body with
              | none => none
              | some (ev2, catch_result) =>
                  some ({ ev2 with env := env_pop ev2.env }, catch_result)
          | _, _, _ => some (ev1, try_result)

/-- Try-expression evaluation, from
src/interpreter/helpers/eval_control_flow.rs `eval_try_catch_expr`: the
try/catch phase, then - when a finally body is present - the finally body,
whose control-flow result overrides the pending one
(`finally_override`), and the final completion (`try_finish`). -/
def eval_try_catch_expr : Nat → Evaluator → StmtList → Option String →
    Option StmtList → Option StmtList → Option (Evaluator × Object)
  | 0, _, _, _, _, _ => none
  | f + 1, ev, try_body, catch_ident, catch_body, finally_body =>
      match try_catch_phase f ev try_body catch_ident catch_body with
      | none => none
      | some (ev1, try_result) =>
          match finally_body with
          | some f_body =>
              match eval_blockstmt f ev1 f_body with
              | none => none
              | some (ev2, finally_result) =>
                  some (ev2, try_finish (finally_override try_result finally_result))
          | none => some (ev1, try_finish try_result)

/-- Call evaluation, from src/interpreter/helpers/eval_functions.rs
`eval_call`: evaluate the callee, filter with `obj_to_func`, then dispatch.
An `AsyncFunction` callee spawns a task on the tokio runtime
(`eval_async_fn_call`), which a pure embedding cannot represent: that arm
yields a marked error that no claim's theorem touches. -/
def eval_call : Nat → Evaluator → Expr → ExprList → Option (Evaluator × Object)
  | 0, _, _, _ => none
  | f + 1, ev, fn_expr, args_expr =>
      match eval_expr f ev fn_expr with
      | none => none
      | some (ev1, fn_object) =>
          match obj_to_func fn_object with
          | .function params body f_env => eval_fn_call f ev1 args_expr params body f_env
          | .asyncFunction _ _ _ =>
              some (ev1, .error (.invalidOperation
                "async call evaluation spawns a tokio task and is not modelled"))
          | .builtin name min_params max_params =>
              eval_builtin_call f ev1 args_expr name min_params max_params
          | .builtinStd name min_params max_params =>
              eval_std_call f ev1 args_expr name min_params max_params
          | o_err => some (ev1, o_err)

/-- User-function call, from src/interpreter/helpers/eval_functions.rs
`eval_fn_call`: reject fewer arguments than parameters (extra arguments
are silently dropped by the zip), evaluate the arguments left to right
without a control-flow check, run the body in a fresh child of the
captured environment, restore the caller's frame, and strip one
`ReturnValue` layer. -/
def eval_fn_call : Nat → Evaluator → ExprList → List String → StmtList →
    Environment → Option (Evaluator × Object)
  | 0, _, _, _, _, _ => none
  | f + 1, ev, args_expr, params, body, f_env =>
      if expr_list_length args_expr < params.length then
        some (ev, .error (.wrongNumberOfArguments params.length params.length
          (expr_list_length args_expr)))
      else
        match eval_args f ev args_expr with
        | none => none
        | some (ev1, args) =>
            let new_env := (params.zip args).foldl
              (fun e p => e.set p.1 p.2) (Environment.new_with_outer f_env)
            match eval_blockstmt f { ev1 with env := new_env } body with
            | none => none
            | some (ev2, object) =>
                some ({ ev2 with env := ev1.env }, returned object)

/-- Builtin call, from src/interpreter/helpers/eval_functions.rs
`eval_builtin_call`: the registered `(min, max)` arity window gates the
unevaluated argument count; inside the window the arguments are evaluated
and the native function runs, its string error wrapped as
`InvalidArguments`. -/
def eval_builtin_call : Nat → Evaluator → ExprList → String → Nat → Nat →
    Option (Evaluator × Object)
  | 0, _, _, _, _, _ => none
  | f + 1, ev, args_expr, name, min_params, max_params =>
      if expr_list_length args_expr < min_params ||
          expr_list_length args_expr > max_params then
        some (ev, .error (.wrongNumberOfArguments min_params max_params
          (expr_list_length args_expr)))
      else
        match eval_args f ev args_expr with
        | none => none
        | some (ev1, args) =>
            match apply_builtin name args with
            | .ok obj => some (ev1, obj)
            | .error e => some (ev1, .error (.invalidArguments e))

/-- Stdlib-builtin call, from src/interpreter/helpers/eval_functions.rs
`eval_std_call` (same arity gate; the native error is already a
`RuntimeError`). -/
def eval_std_call : Nat → Evaluator → ExprList → String → Nat → Nat →
    Option (Evaluator × Object)
  | 0, _, _, _, _, _ => none
  | f + 1, ev, args_expr, name, min_params, max_params =>
      if expr_list_length args_expr < min_params ||
          expr_list_length args_expr > max_params then
        some (ev, .error (.wrongNumberOfArguments min_params max_params
          (expr_list_length args_expr)))
      else
        match eval_args f ev args_expr with
        | none => none
        | some (ev1, args) =>
            match apply_std_builtin name args with
            | .ok obj => some (ev1, obj)
            | .error e => some (ev1, .error e)

/-- Direct call with evaluated arguments, from
src/interpreter/helpers/eval_functions.rs `eval_fn_call_direct` (used by
method calls): exact arity, parameters bound through the chain-walking
`set` of the current scope, body run in place. -/
def eval_fn_call_direct : Nat → Evaluator → List Object → List String → StmtList →
    Option (Evaluator × Object)
  | 0, _, _, _, _ => none
  | f + 1, ev, args, params, body =>
      if args.length != params.length then
        some (ev, .error (.wrongNumberOfArguments params.length params.length
          args.length))
      else
        let ev1 := { ev with
          env := (params.zip args).foldl (fun e p => e.set p.1 p.2) ev.env }
        eval_blockstmt f ev1 body

/-- Method call, from src/interpreter/helpers/structs.rs `eval_method_call`:
a struct receiver whose method table has the name runs the method with
`this` set in a fresh child scope (arguments are evaluated inside that
scope), observes `this` afterwards, restores the caller's frame, writes
the observed receiver back when the receiver was a plain identifier, and
maps a `Null` result to the observed receiver and an explicit return to
its payload; otherwise the builtin-method table is consulted. -/
def eval_method_call : Nat → Evaluator → Expr → String → ExprList →
    Option (Evaluator × Object)
  | 0, _, _, _, _ => none
  | f + 1, ev, object_expr, method_name, args_expr =>
      let var_name_if_ident : Option String :=
        match object_expr with
        | .identExpr n => some n
        | _ => none
      match eval_expr f ev object_expr with
      | none => none
      | some (ev1, object) =>
          match object with
          | .structObj sname sfields smethods =>
              match store_get smethods method_name with
              | some method_obj =>
                  let new_env := (Environment.new_with_outer ev1.env).set "this"
                    (.structObj sname sfields smethods)
                  match method_obj with
                  | .function params body _ =>
                      match eval_args f { ev1 with env := new_env } args_expr with
                      | none => none
                      | some (evA, args) =>
                          match eval_fn_call_direct f evA args params body with
                          | none => none
                          | some (evB, result) =>
                              let modified_this :=
                                (evB.env.get "this").getD (.structObj sname sfields smethods)
                              let evR := { evB with env := env_pop evB.env }
                              let evR2 :=
                                match var_name_if_ident with
                                | some var_name =>
                                    { evR with env := evR.env.set var_name modified_this }
                                | none => evR
                              let final_result :=
                                match result with
                                | .null => modified_this
                                | .returnValue val => val
                                | other => other
                              some (evR2, returned final_result)
                  | _ => some (ev1, .error (.notCallable method_name))
              | none =>
                  match eval_args f ev1 args_expr with
                  | none => none
                  | some (ev2, args) =>
                      match builtin_method_call (.structObj sname sfields smethods)
                          method_name args with
                      | .ok obj => some (ev2, obj)
                      | .error e => some (ev2, .error e)
          | _ =>
              match eval_args f ev1 args_expr with
              | none => none
              | some (ev2, args) =>
                  match builtin_method_call object method_name args with
                  | .ok obj => some (ev2, obj)
                  | .error e => some (ev2, .error e)

/-- Struct definition, from src/interpreter/helpers/structs.rs
`eval_struct_def`: field defaults are evaluated once, method expressions
are evaluated to values, and the prototype is bound under the type name;
the statement yields `Null`. -/
def eval_struct_def : Nat → Evaluator → String → IdentExprList → IdentExprList →
    Option (Evaluator × Object)
  | 0, _, _, _, _ => none
  | f + 1, ev, struct_name, fields, methods =>
      match eval_ident_expr_pairs_into f ev fields .nil with
      | none => none
      | some (ev1, default_fields) =>
          match eval_ident_expr_pairs_into f ev1 methods .nil with
          | none => none
          | some (ev2, struct_methods) =>
              let struct_obj := Object.structObj struct_name default_fields struct_methods
              some ({ ev2 with env := ev2.env.set struct_name struct_obj }, .null)

/-- Struct literal, from src/interpreter/helpers/structs.rs
`eval_struct_literal`: look the prototype up, clone its defaults, override
with the provided assignments, attach the methods. -/
def eval_struct_literal : Nat → Evaluator → String → IdentExprList →
    Option (Evaluator × Object)
  | 0, _, _, _ => none
  | f + 1, ev, struct_name, field_assignments =>
      match ev.env.get struct_name with
      | some (.structObj _ default_fields methods) =>
          match eval_ident_expr_pairs_into f ev field_assignments default_fields with
          | none => none
          | some (ev1, instance_fields) =>
              some (ev1, .structObj struct_name instance_fields methods)
      | some _ =>
          some (ev, .error (.invalidOperation (struct_name ++ " is not a struct")))
      | none => some (ev, .error (.undefinedVariable struct_name))

/-- Evaluation loop over named expression pairs (the field and method
loops of `eval_struct_def` and `eval_struct_literal`), inserting each
evaluated value into the accumulating map. -/
def eval_ident_expr_pairs_into : Nat → Evaluator → IdentExprList → StrObjList →
    Option (Evaluator × StrObjList)
  | 0, _, _, _ => none
  | _ + 1, ev, .nil, acc => some (ev, acc)
  | f + 1, ev, .cons name e rest, acc =>
      match eval_expr f ev e with
      | none => none
      | some (ev1, value) =>
          eval_ident_expr_pairs_into f ev1 rest (store_insert acc name value)

/-- Field access, from src/interpreter/helpers/structs.rs
`eval_field_access`. -/
def eval_field_access : Nat → Evaluator → Expr → String → Option (Evaluator × Object)
  | 0, _, _, _ => none
  | f + 1, ev, object_expr, field_name =>
      match eval_expr f ev object_expr with
      | none => none
      | some (ev1, object) =>
          match object with
          | .structObj _ fields _ =>
              match store_get fields field_name with
              | some value => some (ev1, value)
              | none =>
                  some (ev1, .error (.invalidOperation
                    ("struct has no field '" ++ field_name ++ "'")))
          | other =>
              some (ev1, .error (.invalidOperation
                (type_name other ++ " does not have fields")))

/-- Field assignment, from src/interpreter/helpers/structs.rs
`eval_field_assign`: the value is evaluated first; only the
`this.field = v` target form is supported. -/
def eval_field_assign : Nat → Evaluator → Expr → String → Expr →
    Option (Evaluator × Object)
  | 0, _, _, _, _ => none
  | f + 1, ev, object_expr, field_name, value_expr =>
      match eval_expr f ev value_expr with
      | none => none
      | some (ev1, value) =>
          match object_expr with
          | .thisExpr =>
              match ev1.env.get "this" with
              | some (.structObj sname sfields smethods) =>
                  let updated := Object.structObj sname
                    (store_insert sfields field_name value) smethods
                  some ({ ev1 with env := ev1.env.set "this" updated }, value)
              | some other =>
                  some (ev1, .error (.invalidOperation
                    (type_name other ++ " does not have fields")))
              | none =>
                  some (ev1, .error (.invalidOperation
                    "'this' is not defined in current scope"))
          | _ =>
              some (ev1, .error (.invalidOperation
                "Can only assign to 'this.field', not other object fields"))

/-- Index assignment, from src/interpreter/helpers/data_structures.rs
`eval_index_assign`: index then value are evaluated; the target must be a
plain identifier or `this`; the whole container is read, updated and
written back. -/
def eval_index_assign : Nat → Evaluator → Expr → Expr → Expr →
    Option (Evaluator × Object)
  | 0, _, _, _, _ => none
  | f + 1, ev, target_expr, index_expr, value_expr =>
      match eval_expr f ev index_expr with
      | none => none
      | some (ev1, index) =>
          match eval_expr f ev1 value_expr with
          | none => none
          | some (ev2, value) =>
              match target_expr with
              | .identExpr var_name =>
                  match ev2.env.get var_name with
                  | none => some (ev2, .error (.undefinedVariable var_name))
                  | some current_value =>
                      match index_assign_update current_value index value with
                      | .error e => some (ev2, e)
                      | .ok updated_value =>
                          some ({ ev2 with env := ev2.env.set var_name updated_value },
                            value)
              | .thisExpr =>
                  match ev2.env.get "this" with
                  | none =>
                      some (ev2, .error (.invalidOperation
                        "'this' is not defined in current scope"))
                  | some current_this =>
                      match index_assign_update current_this index value with
                      | .error e => some (ev2, e)
                      | .ok updated_value =>
                          some ({ ev2 with env := ev2.env.set "this" updated_value },
                            value)
              | _ =>
                  some (ev2, .error (.invalidOperation
                    "Can only assign to variable[index] or this[index], not complex expressions"))

/-- Array construction, from src/interpreter/helpers/data_structures.rs
`eval_array`. -/
def eval_array : Nat → Evaluator → ExprList → Option (Evaluator × Object)
  | 0, _, _ => none
  | f + 1, ev, exprs =>
      match eval_args f ev exprs with
      | none => none
      | some (ev1, vals) => some (ev1, .array (obj_list_of vals))

/-- Hash construction, from src/interpreter/helpers/data_structures.rs
`eval_hash`: key/value pairs evaluate in order; a key must be an
`Integer`, `Boolean` or `String` (an `Error` key propagates, anything else
is `NotHashable`). -/
def eval_hash_pairs : Nat → Evaluator → ExprPairList → ObjPairList →
    Option (Evaluator × Object)
  | 0, _, _, _ => none
  | _ + 1, ev, .nil, acc => some (ev, .hash acc)
  | f + 1, ev, .cons key_expr val_expr rest, acc =>
      match eval_expr f ev key_expr with
      | none => none
      | some (ev1, key) =>
          match eval_expr f ev1 val_expr with
          | none => none
          | some (ev2, val) =>
              match key with
              | .integer i => eval_hash_pairs f ev2 rest (hash_insert acc (.integer i) val)
              | .boolean b => eval_hash_pairs f ev2 rest (hash_insert acc (.boolean b) val)
              | .string s => eval_hash_pairs f ev2 rest (hash_insert acc (.string s) val)
              | .error e => some (ev2, .error e)
              | k => some (ev2, .error (.notHashable (type_name k)))

/-- Index evaluation, from src/interpreter/helpers/data_structures.rs
`eval_index`: arrays check a non-negative in-range machine integer; hashes
filter the key through `obj_to_hash` and then remove-and-return from the
local copy of the hash, with `Null` for an absent key (the binding the
target expression was read from is untouched); anything else is
`NotHashable`. -/
def eval_index : Nat → Evaluator → Expr → Expr → Option (Evaluator × Object)
  | 0, _, _, _ => none
  | f + 1, ev, target_exp, id_exp =>
      match eval_expr f ev target_exp with
      | none => none
      | some (ev1, target) =>
          match eval_expr f ev1 id_exp with
          | none => none
          | some (ev2, index) =>
              match target with
              | .array arr =>
                  match obj_to_int index with
                  | .ok index_number =>
                      if index_number < 0 then
                        some (ev2, .error (.indexOutOfBounds index_number
                          (obj_list_length arr)))
                      else if obj_list_length arr ≤ index_number.toNat then
                        some (ev2, .error (.indexOutOfBounds index_number
                          (obj_list_length arr)))
                      else
                        some (ev2, (obj_list_nth arr index_number.toNat).getD .null)
                  | .error err => some (ev2, err)
              | .hash h =>
                  match obj_to_hash index with
                  | .error e => some (ev2, .error e)
                  | name => some (ev2, ((hash_remove h name).1).getD .null)
              | o => some (ev2, .error (.notHashable (type_name o)))

/-- Left-to-right argument evaluation (the argument loops of
src/interpreter/helpers/eval_functions.rs; no control-flow check is made
on an argument's value). -/
def eval_args : Nat → Evaluator → ExprList → Option (Evaluator × List Object)
  | 0, _, _ => none
  | _ + 1, ev, .nil => some (ev, [])
  | f + 1, ev, .cons e rest =>
      match eval_expr f ev e with
      | none => none
      | some (ev1, o) =>
          match eval_args f ev1 rest with
          | none => none
          | some (ev2, os) => some (ev2, o :: os)
end

/-- Program evaluation, from src/interpreter/eval.rs `eval_program`: the
block result with one `ReturnValue` layer stripped. -/
def eval_program (fuel : Nat) (ev : Evaluator) (prog : Program) :
    Option (Evaluator × Object) :=
  match eval_blockstmt fuel ev prog with
  | none => none
  | some (ev1, o) => some (ev1, returned o)

/-- A fresh evaluator over a given registry (the `Evaluator::new` /
`Default` construction of src/interpreter/eval.rs: a root environment
seeded with the builtins). -/
def Evaluator.fresh (registry : List (String × ModuleVal)) : Evaluator :=
  { env := Environment.new, module_registry := registry, in_async_context := false }

mutual
/-- Statement traversal of the await validation, from
src/parser/await_ctx_helpers.rs `verify_await_in_stmt`: expressions of
let/assign/expr/expr-value/return/throw statements are checked in the
current async context, an `fn` statement body is checked outside async,
`break`/`continue` pass, and - verbatim from the source -
`ImportStmt`, `FieldAssignStmt` and `IndexAssignStmt` pass without any
descent; a `struct` statement checks its method expressions outside async
(field defaults are not visited). -/
def verify_await_in_stmt : Stmt → Bool → Except ParserErr Unit
  | .letStmt _ e, in_async => verify_await_in_expr e in_async
  | .assignStmt _ e, in_async => verify_await_in_expr e in_async
  | .exprStmt e, in_async => verify_await_in_expr e in_async
  | .exprValueStmt e, in_async => verify_await_in_expr e in_async
  | .returnStmt e, in_async => verify_await_in_expr e in_async
  | .throwStmt e, in_async => verify_await_in_expr e in_async
  | .fnStmt _ _ body, _ => verify_await_in_stmt_list body false
  | .breakStmt, _ => .ok ()
  | .continueStmt, _ => .ok ()
  | .importStmt _ _, _ => .ok ()
  | .fieldAssignStmt _ _ _, _ => .ok ()
  | .indexAssignStmt _ _ _, _ => .ok ()
  | .structStmt _ _ methods, _ => verify_await_in_ident_exprs methods false

/-- Expression traversal of the await validation, from
src/parser/await_ctx_helpers.rs `verify_await_in_expr`.  Verbatim from the
source: `ForExpr`, `WhileExpr`, `CStyleForExpr`, `StructLiteral`,
`ThisExpr` and `FieldAccessExpr` pass without descending into their
subtrees; an `AwaitExpr` checks only the flag and does not descend into
its operand; `FnExpr` bodies reset the flag to false and `AsyncFnExpr`
bodies set it to true. -/
def verify_await_in_expr : Expr → Bool → Except ParserErr Unit
  | .identExpr _, _ => .ok ()
  | .litExpr _, _ => .ok ()
  | .prefixExpr _ e, in_async => verify_await_in_expr e in_async
  | .infixExpr _ e1 e2, in_async =>
      match verify_await_in_expr e1 in_async with
      | .ok _ => verify_await_in_expr e2 in_async
      | .error e => .error e
  | .ifExpr cond conse alter, in_async =>
      match verify_await_in_expr cond in_async with
      | .error e => .error e
      | .ok _ =>
          match verify_await_in_stmt_list conse in_async with
          | .error e => .error e
          | .ok _ =>
              match alter with
              | some alt => verify_await_in_stmt_list alt in_async
              | none => .ok ()
  | .fnExpr _ body, _ => verify_await_in_stmt_list body false
  | .asyncFnExpr _ body, _ => verify_await_in_stmt_list body true
  | .callExpr fn args, in_async =>
      match verify_await_in_expr fn in_async with
      | .error e => .error e
      | .ok _ => verify_await_in_expr_list args in_async
  | .arrayExpr elems, in_async => verify_await_in_expr_list elems in_async
  | .hashExpr pairs, in_async => verify_await_in_expr_pairs pairs in_async
  | .indexExpr arr idx, in_async =>
      match verify_await_in_expr arr in_async with
      | .ok _ => verify_await_in_expr idx in_async
      | .error e => .error e
  | .methodCallExpr object _ args, in_async =>
      match verify_await_in_expr object in_async with
      | .error e => .error e
      | .ok _ => verify_await_in_expr_list args in_async
  | .forExpr _ _ _, _ => .ok ()
  | .whileExpr _ _, _ => .ok ()
  | .tryCatchExpr try_body _ catch_body finally_body, in_async =>
      match verify_await_in_stmt_list try_body in_async with
      | .error e => .error e
      | .ok _ =>
          match (match catch_body with
                 | some cb => verify_await_in_stmt_list cb in_async
                 | none => .ok ()) with
          | .error e => .error e
          | .ok _ =>
              match finally_body with
              | some fb => verify_await_in_stmt_list fb in_async
              | none => .ok ()
  | .awaitExpr _, in_async =>
      if in_async then .ok () else .error .awaitOutsideAsync
  | .structLiteral _ _, _ => .ok ()
  | .thisExpr, _ => .ok ()
  | .fieldAccessExpr _ _, _ => .ok ()
  | .cStyleForExpr _ _ _ _, _ => .ok ()

/-- Statement-sequence traversal (the `for stmt in program` loops with `?`
propagation). -/
def verify_await_in_stmt_list : StmtList → Bool → Except ParserErr Unit
  | .nil, _ => .ok ()
  | .cons s rest, in_async =>
      match verify_await_in_stmt s in_async with
      | .ok _ => verify_await_in_stmt_list rest in_async
      | .error e => .error e

/-- Expression-sequence traversal (argument and element loops). -/
def verify_await_in_expr_list : ExprList → Bool → Except ParserErr Unit
  | .nil, _ => .ok ()
  | .cons e rest, in_async =>
      match verify_await_in_expr e in_async with
      | .ok _ => verify_await_in_expr_list rest in_async
      | .error e => .error e

/-- Hash-pair traversal (keys then values). -/
def verify_await_in_expr_pairs : ExprPairList → Bool → Except ParserErr Unit
  | .nil, _ => .ok ()
  | .cons k v rest, in_async =>
      match verify_await_in_expr k in_async with
      | .error e => .error e
      | .ok _ =>
          match verify_await_in_expr v in_async with
          | .error e => .error e
          | .ok _ => verify_await_in_expr_pairs rest in_async

/-- Struct-method traversal (the `for (_, expr) in methods` loop). -/
def verify_await_in_ident_exprs : IdentExprList → Bool → Except ParserErr Unit
  | .nil, _ => .ok ()
  | .cons _ e rest, in_async =>
      match verify_await_in_expr e in_async with
      | .ok _ => verify_await_in_ident_exprs rest in_async
      | .error e => .error e
end

/-- Whole-program traversal, from src/parser/await_ctx_helpers.rs
`verify_await_in_async`. -/
def verify_await_in_async (program : Program) (in_async : Bool) :
    Except ParserErr Unit :=
  verify_await_in_stmt_list program in_async

/-- Post-parse await validation, from src/parser/await_ctx_helpers.rs
`validate_await_usage`: the traversal starts outside async. -/
def validate_await_usage (program : Program) : Except ParserErr Unit :=
  verify_await_in_async program false

/-- Membership of a statement in a statement sequence. -/
def stmt_mem : Stmt → StmtList → Prop
  | _, .nil => False
  | s, .cons t rest => s = t ∨ stmt_mem s rest

/-- Whether any frame of the chain binds the name. -/
def env_bound : Environment → String → Bool
  | .root s, n => store_contains s n
  | .child s p, n => store_contains s n || env_bound p n

/-- Written from the claim's words (C4): `set` updates the nearest existing
binding when the name is bound in the current frame or any ancestor frame,
and otherwise creates a new binding in the current frame. -/
def spec_set_nearest : Environment → String → Object → Environment
  | .root s, n, v => .root (store_insert s n v)
  | .child s p, n, v =>
      if store_contains s n then .child (store_insert s n v) p
      else if env_bound p n then .child s (spec_set_nearest p n v)
      else .child (store_insert s n v) p

/-- Written from the claim's words (C4): `get` walks outward through the
chain and returns the nearest binding, or nothing when the chain is
exhausted. -/
def spec_get_nearest : Environment → String → Option Object
  | .root s, n => store_get s n
  | .child s p, n =>
      match store_get s n with
      | some o => some o
      | none => spec_get_nearest p n

/-- Well-formed integer-like operands: an `Integer` always fits i64 (its
Rust carrier is an `i64`); a `BigInteger` carries any integer. -/
def int_like_wf (o : Object) : Prop :=
  (∃ i, o = .integer i ∧ fits_i64 i = true) ∨ (∃ i, o = .bigInteger i)

/-- Normalization property of an integer-valued result: whenever it is an
`Integer` the value fits i64, and whenever it is a `BigInteger` the value
does not. -/
def int_result_normalized (o : Object) : Prop :=
  (∀ i, o = .integer i → fits_i64 i = true) ∧
  (∀ i, o = .bigInteger i → fits_i64 i = false)

/-- Literals whose values `obj_to_hash` accepts as hash keys. -/
def is_hashable_lit : Lit → Bool
  | .intLit _ => true
  | .bigIntLit _ => true
  | .boolLit _ => true
  | .stringLit _ => true
  | _ => false

theorem fits_i64_iff (i : Int) : fits_i64 i = true ↔ (-(2 ^ 63) ≤ i ∧ i < 2 ^ 63) := by
  simp [fits_i64]

theorem error_normalized (e : RuntimeErr) : int_result_normalized (.error e) :=
  ⟨fun _ hi => (nomatch hi), fun _ hi => (nomatch hi)⟩

theorem normalize_int_normalized (b : Int) : int_result_normalized (normalize_int b) := by
  unfold normalize_int int_result_normalized
  split
  · refine ⟨fun i hi => ?_, fun i hi => (nomatch hi)⟩
    cases hi
    assumption
  · refine ⟨fun i hi => (nomatch hi), fun i hi => ?_⟩
    cases hi
    simp_all

theorem gen_numeric_op_normalized (iop : Int → Int → Int)
    (fop : Float → Float → Float) (is_div : Bool) (o1 o2 : Object)
    (h1 : int_like_wf o1) (h2 : int_like_wf o2) :
    int_result_normalized (gen_numeric_op iop fop is_div o1 o2) := by
  have hint : ∀ a b : Int,
      int_result_normalized
        (if (is_div && b == 0) = true then Object.error RuntimeErr.divisionByZero
         else normalize_int (iop a b)) := by
    intro a b
    split
    · exact error_normalized _
    · exact normalize_int_normalized _
  rcases h1 with ⟨i, rfl, hfit⟩ | ⟨i, rfl⟩ <;>
    rcases h2 with ⟨j, rfl, hfit2⟩ | ⟨j, rfl⟩ <;>
      simpa [gen_numeric_op, is_float_obj, to_bigint] using hint _ _

theorem object_add_normalized (o1 o2 : Object)
    (h1 : int_like_wf o1) (h2 : int_like_wf o2) :
    int_result_normalized (object_add o1 o2) := by
  rcases h1 with ⟨i, rfl, hfit⟩ | ⟨i, rfl⟩ <;>
    rcases h2 with ⟨j, rfl, hfit2⟩ | ⟨j, rfl⟩ <;>
      simpa [object_add, is_float_obj, to_bigint] using normalize_int_normalized _

theorem env_get_eq_spec_aux :
    ∀ (env : Environment) (n : String), env.get n = spec_get_nearest env n
  | .root s, n => by simp [Environment.get, spec_get_nearest]
  | .child s p, n => by
      simp only [Environment.get, spec_get_nearest]
      cases store_get s n with
      | none => exact env_get_eq_spec_aux p n
      | some o => rfl

theorem env_bound_eq_isSome_aux :
    ∀ (env : Environment) (n : String), (env.get n).isSome = env_bound env n
  | .root s, n => by
      simp [Environment.get, env_bound, store_contains]
  | .child s p, n => by
      simp only [Environment.get, env_bound, store_contains]
      cases h : store_get s n with
      | none => simp [h, env_bound_eq_isSome_aux p n]
      | some o => simp [h]

theorem env_set_eq_spec_aux :
    ∀ (env : Environment) (n : String) (v : Object),
      env.set n v = spec_set_nearest env n v
  | .root s, n, v => by simp [Environment.set, spec_set_nearest]
  | .child s p, n, v => by
      simp only [Environment.set, spec_set_nearest]
      by_cases hc : store_contains s n
      · simp [hc]
      · simp only [hc, if_false]
        rw [env_bound_eq_isSome_aux p n]
        by_cases hb : env_bound p n
        · simp [hb, env_set_eq_spec_aux p n v]
        · simp [hb]

theorem verify_list_ok_iff_aux :
    ∀ (p : StmtList) (b : Bool),
      verify_await_in_stmt_list p b = .ok () ↔
        ∀ s, stmt_mem s p → verify_await_in_stmt s b = .ok ()
  | .nil, b => by simp [verify_await_in_stmt_list, stmt_mem]
  | .cons t rest, b => by
      simp only [verify_await_in_stmt_list]
      cases h : verify_await_in_stmt t b with
      | ok u =>
          cases u
          rw [verify_list_ok_iff_aux rest b]
          constructor
          · intro hall s hs
            cases hs with
            | inl he => exact he ▸ h
            | inr hm => exact hall s hm
          · intro hall s hs
            exact hall s (Or.inr hs)
      | error e =>
          constructor
          · intro hfalse
            cases hfalse
          · intro hall
            have := hall t (Or.inl rfl)
            rw [h] at this
            cases this

theorem select_exports_ok_iff_aux :
    ∀ (mname : String) (names : List String) (exports : StrObjList),
      (∃ sel, select_exports mname names exports = .ok sel) ↔
        ∀ n ∈ names, (store_get exports n).isSome = true
  | _, [], _ => by simp [select_exports]
  | mname, n :: rest, exports => by
      simp only [select_exports, List.mem_cons]
      cases h : store_get exports n with
      | none =>
          simp only [h]
          constructor
          · rintro ⟨sel, hsel⟩
            cases hsel
          · intro hall
            have := hall n (Or.inl rfl)
            rw [h] at this
            cases this
      | some obj =>
          simp only [h]
          rw [show (∀ m, m = n ∨ m ∈ rest → (store_get exports m).isSome = true) ↔
              ∀ m ∈ rest, (store_get exports m).isSome = true from ?_]
          · rw [← select_exports_ok_iff_aux mname rest exports]
            constructor
            · rintro ⟨sel, hsel⟩
              cases hsel' : select_exports mname rest exports with
              | ok tail => exact ⟨tail, rfl⟩
              | error e => rw [hsel'] at hsel; cases hsel
            · rintro ⟨tail, htail⟩
              exact ⟨.cons n obj tail, by rw [htail]⟩
          · constructor
            · intro hall m hm
              exact hall m (Or.inr hm)
            · intro hall m hm
              cases hm with
              | inl he => simp [he, h]
              | inr hm => exact hall m hm

/-- C1: for every `try { E } finally { F }` (with or without a catch
clause), when evaluating the finally body yields a control-flow value
(`ReturnValue`, `Break`, `Continue`, `ThrownValue` or `Error`) that value
is the result of the whole try expression, replacing whatever the
try/catch phase produced; otherwise the try/catch result stands (a
surviving `ThrownValue` propagating upward after the finally body has
run, the other control-flow values unwrapped as they are, a plain value
through `returned`). -/
theorem C1_finally_controls_try_result
    (f : Nat) (ev ev1 ev2 : Evaluator) (try_body : StmtList)
    (catch_ident : Option String) (catch_body : Option StmtList)
    (finally_body : StmtList) (r cf : Object)
    (hphase : try_catch_phase f ev try_body catch_ident catch_body = some (ev1, r))
    (hfin : eval_blockstmt f ev1 finally_body = some (ev2, cf)) :
    eval_try_catch_expr (f + 1) ev try_body catch_ident catch_body
        (some finally_body) =
      some (ev2, if is_control_flow cf then cf else try_finish r) := by
  have hmain : eval_try_catch_expr (f + 1) ev try_body catch_ident catch_body
      (some finally_body) = some (ev2, try_finish (finally_override r cf)) := by
    simp [eval_try_catch_expr, hphase, hfin]
  rw [hmain]
  cases cf <;> simp [finally_override, try_finish, is_control_flow]

/-- Witness for C1 at `try { return 1 } finally { return 2 }`: the finally
body's `ReturnValue(2)` replaces the try body's `ReturnValue(1)`. -/
theorem C1_finally_witness :
    eval_try_catch_expr 11 (Evaluator.fresh [])
      (.cons (.returnStmt (.litExpr (.intLit 1))) .nil) none none
      (some (.cons (.returnStmt (.litExpr (.intLit 2))) .nil)) =
      some (Evaluator.fresh [], .returnValue (.integer 2)) := by
  have h := C1_finally_controls_try_result 10 (Evaluator.fresh [])
    (Evaluator.fresh []) (Evaluator.fresh [])
    (.cons (.returnStmt (.litExpr (.intLit 1))) .nil) none none
    (.cons (.returnStmt (.litExpr (.intLit 2))) .nil)
    (.returnValue (.integer 1)) (.returnValue (.integer 2)) rfl rfl
  exact h.trans rfl

/-- C2: block evaluation stops at the first statement whose result is a
control-flow value (`ReturnValue`, `Break`, `Continue`, `Error` or
`ThrownValue`), propagating that value - and the state the statement left
- upward without evaluating the remaining statements. -/
theorem C2_block_stops_at_control_flow
    (f : Nat) (ev ev' : Evaluator) (s : Stmt) (rest : StmtList) (v : Object)
    (hs : eval_statement f ev s = some (ev', v))
    (hcf : is_control_flow v = true) :
    eval_blockstmt (f + 1) ev (.cons s rest) = some (ev', v) := by
  cases rest with
  | nil => simpa [eval_blockstmt] using hs
  | cons t r => simp [eval_blockstmt, hs, hcf]

/-- Witness for C2: after `throw "E"`, the following `let` is not
evaluated and the thrown value propagates. -/
theorem C2_block_witness :
    eval_blockstmt 6 (Evaluator.fresh [])
      (.cons (.throwStmt (.litExpr (.stringLit "E")))
        (.cons (.letStmt "x" (.litExpr (.intLit 1))) .nil)) =
      some (Evaluator.fresh [], .thrownValue (.string "E")) := by
  exact C2_block_stops_at_control_flow 5 (Evaluator.fresh []) (Evaluator.fresh [])
    (.throwStmt (.litExpr (.stringLit "E")))
    (.cons (.letStmt "x" (.litExpr (.intLit 1))) .nil)
    (.thrownValue (.string "E")) rfl rfl

/-- C3: arithmetic over `Integer` and `BigInteger` operands represents an
integer result as `Integer` exactly when it fits i64 and as `BigInteger`
otherwise; unary negation of `Integer i64::MIN` yields
`BigInteger(2^63)`; and `normalize_int` demotes a `BigInteger` value that
fits i64 to `Integer` (and only such a value). -/
theorem C3_integer_normalization :
    (∀ o1 o2, int_like_wf o1 → int_like_wf o2 →
      int_result_normalized (object_add o1 o2) ∧
      int_result_normalized (object_subtract o1 o2) ∧
      int_result_normalized (object_multiply o1 o2) ∧
      int_result_normalized (object_divide o1 o2) ∧
      int_result_normalized (object_modulo o1 o2)) ∧
    eval_prefix_core .prefixMinus (.integer (-(2 ^ 63))) = .bigInteger (2 ^ 63) ∧
    (∀ i : Int, fits_i64 i = true →
      int_result_normalized (eval_prefix_core .prefixMinus (.integer i))) ∧
    (∀ b : Int, int_result_normalized (eval_prefix_core .prefixMinus (.bigInteger b))) ∧
    (∀ b : Int, fits_i64 b = true → normalize_int b = .integer b) ∧
    (∀ b : Int, fits_i64 b = false → normalize_int b = .bigInteger b) := by
  refine ⟨?_, by norm_num [eval_prefix_core], ?_, ?_, ?_, ?_⟩
  · intro o1 o2 h1 h2
    exact ⟨object_add_normalized o1 o2 h1 h2,
      gen_numeric_op_normalized _ _ _ o1 o2 h1 h2,
      gen_numeric_op_normalized _ _ _ o1 o2 h1 h2,
      gen_numeric_op_normalized _ _ _ o1 o2 h1 h2,
      gen_numeric_op_normalized _ _ _ o1 o2 h1 h2⟩
  · intro i hfit
    simp only [eval_prefix_core]
    by_cases hmin : i = -(2 ^ 63)
    · subst hmin
      norm_num
      refine ⟨fun j hj => (nomatch hj), fun j hj => ?_⟩
      cases hj
      decide
    · have hne : (i == -(2 ^ 63)) = false := by
        have hp : ((2 : Int) ^ 63) = 9223372036854775808 := by norm_num
        rw [hp] at hmin ⊢
        simpa using hmin
      rw [hne]
      simp only [Bool.false_eq_true, if_false]
      rw [fits_i64_iff] at hfit
      refine ⟨fun j hj => ?_, fun j hj => (nomatch hj)⟩
      cases hj
      rw [fits_i64_iff]
      have : -(2 ^ 63) ≠ i := fun h => hmin h.symm
      omega
  · intro b
    simpa [eval_prefix_core] using normalize_int_normalized (-b)
  · intro b hb
    simp [normalize_int, hb]
  · intro b hb
    simp [normalize_int, hb]

/-- Witness for C3: `2^62 + 2^62` overflows i64 into `BigInteger(2^63)`
(normalized), and negating `i64::MIN` widens. -/
theorem C3_normalization_witness :
    int_like_wf (.integer (2 ^ 62)) ∧
    int_result_normalized (object_add (.integer (2 ^ 62)) (.integer (2 ^ 62))) ∧
    eval_prefix_core .prefixMinus (.integer (-(2 ^ 63))) = .bigInteger (2 ^ 63) := by
  have hwf : int_like_wf (.integer (2 ^ 62)) := Or.inl ⟨2 ^ 62, rfl, by decide⟩
  exact ⟨hwf, (C3_integer_normalization.1 _ _ hwf hwf).1,
    C3_integer_normalization.2.1⟩

/-- C4: on every environment chain, `set` updates the nearest existing
binding when the name is bound in the current frame or any ancestor frame
and otherwise creates a new binding in the current frame
(`spec_set_nearest`, written from the claim's words), and `get` walks
outward and returns the nearest binding or nothing when the chain is
exhausted (`spec_get_nearest`). -/
theorem C4_env_set_get_nearest :
    (∀ (env : Environment) (n : String) (v : Object),
      env.set n v = spec_set_nearest env n v) ∧
    (∀ (env : Environment) (n : String),
      env.get n = spec_get_nearest env n) :=
  ⟨env_set_eq_spec_aux, env_get_eq_spec_aux⟩

/-- C5 counterexample: an `await` inside a `while` body, lexically outside
any async fn, is NOT rejected by the post-parse validation - the claim
states such a program fails at parse time, but the traversal's
`WhileExpr` arm returns `Ok` without descending, so
`validate_await_usage` accepts the program `while (true) { await f; }`. -/
theorem C5_await_in_while_accepted :
    validate_await_usage
      (.cons (.exprStmt (.whileExpr (.litExpr (.boolLit true))
        (.cons (.exprStmt (.awaitExpr (.identExpr "f"))) .nil))) .nil) = .ok () := rfl

/-- C5 (amended): every `Await` the post-parse traversal visits and that is
not lexically inside an `async fn` body (with no ordinary `fn` boundary
between) is rejected with `AwaitOutsideAsync`; the traversal resets the
async flag under `fn` bodies and sets it under `async fn` bodies, and a
program passes exactly when each of its statements passes - but the
traversal does not descend into `while` bodies, for-in bodies, C-style for
bodies, field assignments, index assignments or import statements, which
therefore always pass. -/
theorem C5_visited_awaits_rejected :
    (∀ e, verify_await_in_expr (.awaitExpr e) false = .error .awaitOutsideAsync) ∧
    (∀ e, verify_await_in_expr (.awaitExpr e) true = .ok ()) ∧
    (∀ n params body b,
      verify_await_in_stmt (.fnStmt n params body) b =
        verify_await_in_stmt_list body false) ∧
    (∀ params body b,
      verify_await_in_expr (.asyncFnExpr params body) b =
        verify_await_in_stmt_list body true) ∧
    (∀ p : Program, validate_await_usage p = .ok () ↔
      ∀ s, stmt_mem s p → verify_await_in_stmt s false = .ok ()) ∧
    (∀ cond body b, verify_await_in_expr (.whileExpr cond body) b = .ok ()) ∧
    (∀ i it body b, verify_await_in_expr (.forExpr i it body) b = .ok ()) ∧
    (∀ i c u body b, verify_await_in_expr (.cStyleForExpr i c u body) b = .ok ()) ∧
    (∀ path items b, verify_await_in_stmt (.importStmt path items) b = .ok ()) ∧
    (∀ o fd v b, verify_await_in_stmt (.fieldAssignStmt o fd v) b = .ok ()) ∧
    (∀ t i v b, verify_await_in_stmt (.indexAssignStmt t i v) b = .ok ()) := by
  refine ⟨fun e => rfl, fun e => rfl, fun n params body b => rfl,
    fun params body b => rfl, fun p => ?_, fun cond body b => rfl,
    fun i it body b => rfl, fun i c u body b => rfl, fun path items b => rfl,
    fun o fd v b => rfl, fun t i v b => rfl⟩
  exact verify_list_ok_iff_aux p false

/-- Witness for C5 (amended): a bare top-level `await f;` statement is
rejected, and an awaitless program passes through the statement-wise
characterization. -/
theorem C5_visited_awaits_witness :
    verify_await_in_expr (.awaitExpr (.identExpr "f")) false =
      .error .awaitOutsideAsync ∧
    validate_await_usage (.cons (.exprStmt (.litExpr (.intLit 1))) .nil) = .ok () := by
  refine ⟨C5_visited_awaits_rejected.1 (.identExpr "f"), ?_⟩
  refine (C5_visited_awaits_rejected.2.2.2.2.1
    (.cons (.exprStmt (.litExpr (.intLit 1))) .nil)).mpr ?_
  intro s hs
  cases hs with
  | inl he => exact he ▸ rfl
  | inr hm => cases hm

/-- C6: indexing a variable bound to a hash with a hashable literal key
returns the mapped value (or `Null` for an absent key) taken from the
copy of the hash the variable lookup produced, and leaves the evaluator
state - the binding of the variable included - exactly unchanged, even
though the implementation removes the key from that copy. -/
theorem C6_hash_index_get_or_null
    (f : Nat) (ev : Evaluator) (hname : String) (hm : ObjPairList) (k : Lit)
    (hget : ev.env.get hname = some (.hash hm))
    (hk : is_hashable_lit k = true) :
    eval_expr (f + 3) ev (.indexExpr (.identExpr hname) (.litExpr k)) =
      some (ev, ((hash_remove hm (eval_literal k)).1).getD .null) := by
  cases k <;> simp_all [eval_expr, eval_index, eval_ident, eval_literal,
    obj_to_hash, is_hashable_lit]

/-- Witness for C6 at `h = {"a": 1}`: `h["a"]` yields `1` and `h["b"]`
yields `Null`, the state untouched in both. -/
theorem C6_hash_index_witness :
    eval_expr 3
      { env := Environment.new.set "h" (.hash (.cons (.string "a") (.integer 1) .nil)),
        module_registry := [], in_async_context := false }
      (.indexExpr (.identExpr "h") (.litExpr (.stringLit "a"))) =
      some ({ env := Environment.new.set "h"
                (.hash (.cons (.string "a") (.integer 1) .nil)),
              module_registry := [], in_async_context := false }, .integer 1) ∧
    eval_expr 3
      { env := Environment.new.set "h" (.hash (.cons (.string "a") (.integer 1) .nil)),
        module_registry := [], in_async_context := false }
      (.indexExpr (.identExpr "h") (.litExpr (.stringLit "b"))) =
      some ({ env := Environment.new.set "h"
                (.hash (.cons (.string "a") (.integer 1) .nil)),
              module_registry := [], in_async_context := false }, .null) := by
  constructor
  · exact (C6_hash_index_get_or_null 0
      { env := Environment.new.set "h" (.hash (.cons (.string "a") (.integer 1) .nil)),
        module_registry := [], in_async_context := false }
      "h" (.cons (.string "a") (.integer 1) .nil) (.stringLit "a") rfl rfl).trans rfl
  · exact (C6_hash_index_get_or_null 0
      { env := Environment.new.set "h" (.hash (.cons (.string "a") (.integer 1) .nil)),
        module_registry := [], in_async_context := false }
      "h" (.cons (.string "a") (.integer 1) .nil) (.stringLit "b") rfl rfl).trans rfl

/-- C7 (code divergence): for every integer `x`, both `x / 0` and `x % 0`
raise `DivisionByZero` - the `gen_numeric_op!` macro shares its `$is_div`
error for `Divide` and `Modulo`, so the declared `ModuloByZero` variant is
never produced, contrary to the claim's two distinct error kinds. -/
theorem C7_modulo_zero_raises_division_error :
    ∀ x : Int,
      object_modulo (.integer x) (.integer 0) = .error .divisionByZero ∧
      object_divide (.integer x) (.integer 0) = .error .divisionByZero := by
  intro x
  constructor <;>
    simp [object_modulo, object_divide, gen_numeric_op, is_float_obj, to_bigint]

/-- C8 counterexample: importing `Specific(["a"])` from a module whose
exports map `a` to `Integer 1` binds nothing under `a` in the caller's
scope; instead a `Module` value holding the selected export is bound under
the module's last path segment `m`, contrary to the claim's direct
binding. -/
theorem C8_specific_import_not_bound_directly :
    ((eval_import (Evaluator.fresh [("m", ⟨"m", .cons "a" (.integer 1) .nil⟩)])
        ["m"] (.specific ["a"])).1.env.get "a" = none) ∧
    ((eval_import (Evaluator.fresh [("m", ⟨"m", .cons "a" (.integer 1) .nil⟩)])
        ["m"] (.specific ["a"])).1.env.get "m" =
      some (.moduleObj "m" (.cons "a" (.integer 1) .nil))) ∧
    ((eval_import (Evaluator.fresh [("m", ⟨"m", .cons "a" (.integer 1) .nil⟩)])
        ["m"] (.specific ["a"])).2 = .null) :=
  ⟨rfl, rfl, rfl⟩

/-- C8 (amended): `ImportItems::Specific(names)` looks each listed name up
in the loaded module's exports; when every name is exported, a `Module`
value carrying exactly the selected exports is bound under the module's
last path segment (the names are not bound directly); when a listed name
is missing, the import yields
`InvalidOperation("Module X has no export 'name'")`, and the selection
succeeds exactly when every listed name is exported. -/
theorem C8_specific_import_binds_module :
    (∀ (ev : Evaluator) (path : List String) (names : List String)
        (module : ModuleVal) (exports : StrObjList),
      load_module ev.module_registry path = .ok module →
      select_exports module.name names module.exports = .ok exports →
      eval_import ev path (.specific names) =
        ({ ev with
            env := ev.env.set ((path.getLast?).getD "") (.moduleObj (join_path path) exports) },
          .null)) ∧
    (∀ (ev : Evaluator) (path : List String) (names : List String)
        (module : ModuleVal) (e : RuntimeErr),
      load_module ev.module_registry path = .ok module →
      select_exports module.name names module.exports = .error e →
      eval_import ev path (.specific names) = (ev, .error e)) ∧
    (∀ (mname n : String) (rest : List String) (exports : StrObjList),
      store_get exports n = none →
      select_exports mname (n :: rest) exports =
        .error (.invalidOperation
          ("Module " ++ mname ++ " has no export '" ++ n ++ "'"))) ∧
    (∀ (mname : String) (names : List String) (exports : StrObjList),
      (∃ sel, select_exports mname names exports = .ok sel) ↔
        ∀ n ∈ names, (store_get exports n).isSome = true) := by
  refine ⟨?_, ?_, ?_, select_exports_ok_iff_aux⟩
  · intro ev path names module exports hload hsel
    simp [eval_import, hload, hsel]
  · intro ev path names module e hload hsel
    simp [eval_import, hload, hsel]
  · intro mname n rest exports hmiss
    simp [select_exports, hmiss]

/-- Witness for C8 (amended) at the one-export module `m`: the import
succeeds and binds the wrapped module under `m`. -/
theorem C8_specific_import_witness :
    eval_import (Evaluator.fresh [("m", ⟨"m", .cons "a" (.integer 1) .nil⟩)])
        ["m"] (.specific ["a"]) =
      ({ env := Environment.new.set "m" (.moduleObj "m" (.cons "a" (.integer 1) .nil)),
         module_registry := [("m", ⟨"m", .cons "a" (.integer 1) .nil⟩)],
         in_async_context := false }, .null) := by
  exact (C8_specific_import_binds_module.1
    (Evaluator.fresh [("m", ⟨"m", .cons "a" (.integer 1) .nil⟩)]) ["m"] ["a"]
    ⟨"m", .cons "a" (.integer 1) .nil⟩ (.cons "a" (.integer 1) .nil) rfl rfl).trans rfl

/-- C9 (code divergence): the registration table declares `split` with
arity `(1, 1)` and `trim` with `(3, 3)`, so the documented two-argument
`split(s, sep)` and one-argument `trim(s)` calls are rejected by the arity
gate with `WrongNumberOfArguments` instead of being dispatched - while the
native `bsplit_fn` itself demands two arguments (a single string argument
falls into its string-expectation arm) and `btrim_fn` one, making a
successful `split` call unreachable; `contains` at `(2, 2)` and `slice`
at `(2, 3)`, whose registrations match the spec, do dispatch. -/
theorem C9_split_trim_arity_mismatch :
    store_get builtins_store "split" = some (.builtin "split" 1 1) ∧
    store_get builtins_store "trim" = some (.builtin "trim" 3 3) ∧
    store_get builtins_store "replace" = some (.builtin "replace" 1 1) ∧
    ((eval_program 20 (Evaluator.fresh [])
      (.cons (.exprValueStmt (.callExpr (.identExpr "split")
        (.cons (.litExpr (.stringLit "a,b"))
          (.cons (.litExpr (.stringLit ",")) .nil)))) .nil)).map Prod.snd =
      some (.error (.wrongNumberOfArguments 1 1 2))) ∧
    ((eval_program 20 (Evaluator.fresh [])
      (.cons (.exprValueStmt (.callExpr (.identExpr "trim")
        (.cons (.litExpr (.stringLit " x ")) .nil))) .nil)).map Prod.snd =
      some (.error (.wrongNumberOfArguments 3 3 1))) ∧
    bsplit_fn [.string "a,b"] = .error "split() expects string, got string" ∧
    btrim_fn [.string " x "] = .ok (.string "x") ∧
    ((eval_program 20 (Evaluator.fresh [])
      (.cons (.exprValueStmt (.callExpr (.identExpr "contains")
        (.cons (.litExpr (.stringLit "ab"))
          (.cons (.litExpr (.stringLit "a")) .nil)))) .nil)).map Prod.snd =
      some (.boolean true)) ∧
    ((eval_program 20 (Evaluator.fresh [])
      (.cons (.exprValueStmt (.callExpr (.identExpr "slice")
        (.cons (.litExpr (.stringLit "abc"))
          (.cons (.litExpr (.intLit 1)) .nil)))) .nil)).map Prod.snd =
      some (.string "bc")) :=
  ⟨rfl, rfl, rfl, rfl, rfl, rfl, rfl, rfl, rfl⟩

/-- C10 counterexample: equality is NOT irreflexive at the `Future` variant
alone, contrary to the claim's clause "unlike every other value variant" -
`impl PartialEq for Object` (obj.rs) has no arm for `Struct` (nor for
`Method`), so an empty struct value `P{}` compared with `==` against an
identical struct value also yields `Boolean(false)`. -/
theorem C10_struct_equality_also_irreflexive :
    eval_infix_core .equal (.structObj "P" .nil .nil) (.structObj "P" .nil .nil) =
      .boolean false := rfl

/-- C10 (amended): comparing two `Future` values with `==` yields
`Boolean(false)` and with `!=` yields `Boolean(true)`, even for the same
underlying handle, so equality is not reflexive at the `Future` variant;
the same holds at the `Struct` and `Method` variants, which the
`PartialEq` impl likewise leaves to the catch-all `false` arm, while
equality is reflexive at the scalar value variants (`Integer`,
`BigInteger`, `Boolean`, `String`, `Null`, `Break`, `Continue`). -/
theorem C10_future_struct_method_equality_irreflexive :
    (∀ a b : Nat, eval_infix_core .equal (.future a) (.future b) = .boolean false) ∧
    (∀ a : Nat, eval_infix_core .equal (.future a) (.future a) = .boolean false) ∧
    (∀ a b : Nat, eval_infix_core .notEqual (.future a) (.future b) = .boolean true) ∧
    (∀ (n : String) (fields methods : StrObjList),
      obj_eq (.structObj n fields methods) (.structObj n fields methods) = false) ∧
    (∀ (params : List String) (body : StmtList) (env : Environment),
      obj_eq (.method params body env) (.method params body env) = false) ∧
    (∀ i : Int, obj_eq (.integer i) (.integer i) = true) ∧
    (∀ i : Int, obj_eq (.bigInteger i) (.bigInteger i) = true) ∧
    (∀ b : Bool, obj_eq (.boolean b) (.boolean b) = true) ∧
    (∀ s : String, obj_eq (.string s) (.string s) = true) ∧
    obj_eq .null .null = true ∧
    obj_eq .breakObj .breakObj = true ∧
    obj_eq .continueObj .continueObj = true := by
  refine ⟨fun a b => rfl, fun a => rfl, fun a b => rfl,
    fun n fields methods => rfl, fun params body env => rfl,
    fun i => ?_, fun i => ?_, fun b => ?_, fun s => ?_, rfl, rfl, rfl⟩
  · exact (show obj_eq (.integer i) (.integer i) = (i == i) from rfl).trans (by simp)
  · exact (show obj_eq (.bigInteger i) (.bigInteger i) = (i == i) from rfl).trans (by simp)
  · exact (show obj_eq (.boolean b) (.boolean b) = (b == b) from rfl).trans (by simp)
  · exact (show obj_eq (.string s) (.string s) = (s == s) from rfl).trans (by simp)
